import Mathlib

/-!
Verification of the scam-honeypot conversation engine of the repository
`ScamdetectioinAiCallAgent` against its natural-language specification.

The development shallowly embeds the decision logic of the repository's
Python sources as executable Lean definitions:

* `FullHoneypotSystem` — `full_honeypot_system.py`: `ScamAnalyzer.analyze`,
  `ScamAnalyzer.detect_scammer_persona`, `PsychologicalFatigueTracker`, and
  the bank-account part of `IntelligenceExtractor.extract_all`.
* `OpenRouterIntegration` — `openrouter_integration.py`:
  `UnifiedIntelligenceExtractor.extract_all` (UPI-handle and bank-account
  extraction) and the control flow of `OpenRouterPersonaAgent.generate_response`.
* `GuviHackathonApi` — `guvi_hackathon_api.py`: `AggressiveIntelligenceExtractor`,
  `SessionManager.detect_scam_type`, `SessionManager.merge_intelligence`,
  `IntelligentResponseGenerator.generate`, `SessionManager.handle_message` and
  `SessionManager.send_callback`.

Python regular-expression scans over the fixed patterns of the source are
embedded as left-to-right scanners over `List Char` that produce the same
match lists as `re.finditer`/`re.findall` on those patterns (the patterns
involved are simple enough that the matches admit a direct characterisation:
this is argued pattern by pattern in the doc comments below).  Character
classes (`\w`, `\d`) are taken in their ASCII reading, matching `str.lower`
and the repository's data.  Network and random-choice effects are modelled
as explicit oracle parameters.  Floating-point `confidence` constants
attached to extracted items in the source are not modelled; only the
extracted values are (no claim mentions confidences).
-/

namespace Honeypot

/-! ## Shared character and string utilities -/

/-- Regex word character `\w` (ASCII reading): letters, digits, underscore. -/
def isWordChar (c : Char) : Bool := c.isAlphanum || c == '_'

/-- Characters of the regex class `[\w.-]` (UPI local part in both extractors). -/
def isLocalChar (c : Char) : Bool := isWordChar c || c == '.' || c == '-'

/-- Python `str.lower` (ASCII). -/
def lowerStr (l : List Char) : List Char := l.map Char.toLower

/-- Python substring test `pat in text` on character lists. -/
def isSubstrOf (pat : List Char) : List Char → Bool
  | [] => pat.isEmpty
  | c :: cs => pat.isPrefixOf (c :: cs) || isSubstrOf pat cs

/-- `kw in message_lower` for a keyword given as a `String`. -/
def containsKw (textLower : List Char) (kw : String) : Bool :=
  isSubstrOf kw.data textLower

/-- Number of keywords of `kws` occurring in `textLower`
(`sum(1 for kw in kws if kw in text)`). -/
def countHits (textLower : List Char) (kws : List String) : Nat :=
  (kws.filter (containsKw textLower)).length

/-- `re.search(r'\d{4,}', text)` is a hit iff the text has four consecutive
digits somewhere (a maximal digit run of length at least 4 exists iff four
digits stand in a row). -/
def hasDigitRun4 : List Char → Bool
  | a :: b :: c :: d :: rest =>
      (a.isDigit && b.isDigit && c.isDigit && d.isDigit) || hasDigitRun4 (b :: c :: d :: rest)
  | _ => false

/-- First-occurrence deduplication: the `if value not in collected: append`
idiom used throughout the extractors. -/
def dedupKeepFirst {α : Type} [DecidableEq α] (l : List α) : List α :=
  l.foldl (fun acc x => if x ∈ acc then acc else acc ++ [x]) []

/-- First key of the pair list attaining the maximal value: Python
`max(d, key=d.get)` over a dict in insertion order (ties keep the earlier
key, because `max` only replaces on a strictly greater value). -/
def argmaxFirst : List (String × Nat) → String × Nat
  | [] => ("unknown", 0)
  | p :: rest => rest.foldl (fun best q => if best.2 < q.2 then q else best) p

/-- `max(d.values())` with 0 for the (never occurring) empty dict. -/
def maxVal (l : List (String × Nat)) : Nat := (l.map (fun p => p.2)).foldl max 0

/-! ## Word-bounded digit runs

The bank-account patterns of the three extractors are all of the form
`\b\d{m}\b` or `\b\d{m,n}\b` (or an alternation of two such).  For such a
pattern, `re.finditer` produces exactly the maximal digit runs of the text
that are delimited on both sides by a non-word character (or an end of the
text) and whose length lies in the prescribed range: a shorter sub-run of a
maximal run is always followed or preceded by a digit, which is a word
character, so the `\b` assertions rule it out, and a maximal run longer than
the range admits no match at all for the same reason.  `digitRuns` computes
the word-bounded maximal digit runs in text order; the three extractors are
length filters over it. -/

/-- Worker for `digitRuns`: `cur` is the (reversed) digit run in progress,
`leftOk` whether the character before it was absent or a non-word character. -/
def digitRunsGo : List Char → List Char → Bool → List (List Char)
  | [], cur, leftOk =>
      if cur.isEmpty then [] else if leftOk then [cur.reverse] else []
  | c :: cs, cur, leftOk =>
      if c.isDigit then digitRunsGo cs (c :: cur) leftOk
      else
        (if !cur.isEmpty && leftOk && !isWordChar c then [cur.reverse] else []) ++
          digitRunsGo cs [] (!isWordChar c)

/-- The word-bounded maximal digit runs of a text, in text order. -/
def digitRuns (l : List Char) : List (List Char) := digitRunsGo l [] true

/-! ## The UPI-handle scanner

Both UPI patterns of the repository have the shape
`\b[\w.-]{m,}@(?:provider₁|…|providerₖ|[\w]+)\b` (with `m = 1` written as `+`
in `openrouter_integration.py` and `m = 3` in `guvi_hackathon_api.py`), run
under `re.finditer` with `IGNORECASE`.  Because every provider literal is a
word over `\w` and the alternation ends in the greedy `[\w]+`, the group
together with the trailing `\b` matches exactly the maximal nonempty `\w` run
after the `@` (a literal alternative can only satisfy the trailing `\b` when
it is that whole run); `IGNORECASE` is subsumed by the character classes.  In
the local part, `[\w.-]{m,}` is greedy and `@` is outside the class, so only
the maximal `[\w.-]` run starting at the match position can be followed by
`@`: backtracking to a shorter run always faces another class character, never
`@`.  Hence an attempt at a given position either matches
"maximal-local-run ++ `@` ++ maximal-word-run" (when `\b` holds at the start,
the local run has at least `m` characters and the word run is nonempty) or
fails, and `finditer` then resumes after the match or at the next position.
`upiTry` performs one such attempt and `upiScanGo` drives it left to right,
tracking whether the previous character was a word character (the data the
`\b` assertion at the match start needs: a match starting with a word
character needs a non-word predecessor, one starting with `.`/`-` needs a
word predecessor). -/

/-- One match attempt at the current position (the leading `\b` is checked by
the caller): `some (match, rest-of-text)` or `none`. -/
def upiTry (minLocal : Nat) (l : List Char) : Option (List Char × List Char) :=
  match l.dropWhile isLocalChar with
  | '@' :: rest2 =>
      let L := l.takeWhile isLocalChar
      let P := rest2.takeWhile isWordChar
      if minLocal ≤ L.length ∧ P ≠ [] then
        some (L ++ '@' :: P, rest2.dropWhile isWordChar)
      else none
  | _ => none

/-- A successful attempt consumes at least one character. -/
theorem upiTry_rest_lt {minLocal : Nat} {l mt rest : List Char}
    (h : upiTry minLocal l = some (mt, rest)) : rest.length < l.length := by
  unfold upiTry at h
  split at h
  case _ rest2 heq =>
    dsimp only at h
    split at h
    · have h2 : rest.length ≤ rest2.length := by
        cases h
        exact (List.dropWhile_sublist _).length_le
      have h3 : rest2.length + 1 ≤ l.length := by
        have := (List.dropWhile_sublist (l := l) isLocalChar).length_le
        rw [heq] at this
        simpa using this
      omega
    · exact absurd h (by simp)
  case _ => exact absurd h (by simp)

/-- The scan of `re.finditer` for the UPI pattern: `prevWord` records whether
the character before the current position is a word character (`false` at the
start of the text). -/
def upiScanGo (minLocal : Nat) (prevWord : Bool) (l : List Char) : List (List Char) :=
  match l with
  | [] => []
  | c :: cs =>
      let bOk := if isWordChar c then !prevWord else isLocalChar c && prevWord
      if bOk then
        match h : upiTry minLocal (c :: cs) with
        | some (mt, rest) => mt :: upiScanGo minLocal true rest
        | none => upiScanGo minLocal (isWordChar c) cs
      else upiScanGo minLocal (isWordChar c) cs
termination_by l.length
decreasing_by
  all_goals first
  | exact upiTry_rest_lt h
  | simp

/-- Fuel-driven twin of `upiScanGo` (structurally recursive, so concrete
inputs evaluate inside `decide`): one unit of fuel per text position, which
never runs out when the fuel starts at the text length, since a successful
attempt consumes at least one character (`upiTry_rest_lt`).  The two are
proved equal under that fuel bound below (`upiScanGoF_eq_upiScanGo`). -/
def upiScanGoF (minLocal : Nat) : Nat → Bool → List Char → List (List Char)
  | 0, _, _ => []
  | _ + 1, _, [] => []
  | fuel + 1, prevWord, c :: cs =>
      let bOk := if isWordChar c then !prevWord else isLocalChar c && prevWord
      if bOk then
        match upiTry minLocal (c :: cs) with
        | some (mt, rest) => mt :: upiScanGoF minLocal fuel true rest
        | none => upiScanGoF minLocal fuel (isWordChar c) cs
      else upiScanGoF minLocal fuel (isWordChar c) cs

/-- The matches of the UPI pattern with minimum local length `minLocal` over
a text, in text order. -/
def upiScan (minLocal : Nat) (l : List Char) : List (List Char) :=
  upiScanGoF minLocal l.length false l

end Honeypot

/-! ## `full_honeypot_system.py` -/

namespace FullHoneypotSystem

open Honeypot

/-- `ScamAnalyzer.scam_patterns` (a Python dict in insertion order). -/
def scam_patterns : List (String × List String) := [
  ("banking", ["account", "bank", "otp", "verify", "blocked", "kyc", "atm", "debit", "credit"]),
  ("payment", ["pay", "send", "upi", "paytm", "transfer", "phonepe", "gpay", "payment"]),
  ("urgent", ["urgent", "immediately", "now", "quick", "jaldi", "abhi"]),
  ("threat", ["blocked", "suspended", "action", "police", "arrest", "legal", "court"]),
  ("remote", ["anydesk", "teamviewer", "remote", "access", "install app", "download"]),
  ("refund", ["refund", "cashback", "wrong payment", "return money"])]

def urgency_keywords : List String := ["urgent", "immediately", "now", "jaldi", "abhi"]

def polite_indicators : List String := ["sir", "madam", "please", "kindly"]

def aggressive_indicators : List String := ["must", "have to", "will be", "shall be"]

/-- One bucket's score: `sum(2 for kw in keywords if kw in message_lower)`. -/
def bucketScore (messageLower : List Char) (keywords : List String) : Nat :=
  2 * countHits messageLower keywords

/-- `ScamAnalyzer.detect_scammer_persona`. -/
def detect_scammer_persona (message : String) : String :=
  let ml := lowerStr message.data
  let urgency := countHits ml urgency_keywords
  let polite := countHits ml polite_indicators
  let aggressive := countHits ml aggressive_indicators
  if 2 ≤ aggressive || 2 ≤ urgency then "aggressive"
  else if 2 ≤ polite then "polite"
  else "neutral"

/-- Result record of `ScamAnalyzer.analyze`. -/
structure Analysis where
  primary_scam_type : String
  threat_level : Nat
  has_payment_request : Bool
  urgency : Bool
  should_engage : Bool
  scam_scores : List (String × Nat)
  scammer_persona : String
deriving DecidableEq

/-- `ScamAnalyzer.analyze` (src/full_honeypot_system.py lines 286-332). -/
def analyze (message : String) : Analysis :=
  let message_lower := lowerStr message.data
  let scam_scores := scam_patterns.map (fun p => (p.1, bucketScore message_lower p.2))
  let total_score := (scam_scores.map (fun p => p.2)).sum
  let primary_scam_type :=
    if 0 < maxVal scam_scores then (argmaxFirst scam_scores).1 else "unknown"
  let has_payment_request :=
    ["pay", "send", "upi", "paytm", "transfer"].any (containsKw message_lower)
  let has_urgency := urgency_keywords.any (containsKw message_lower)
  let has_threat := ["block", "suspend", "arrest", "police"].any (containsKw message_lower)
  let has_number := hasDigitRun4 message.data
  let boosted := min 10 total_score
      + (if has_payment_request then 3 else 0) + (if has_urgency then 2 else 0)
      + (if has_threat then 2 else 0) + (if has_number then 1 else 0)
  let threat_level := min 10 (max 3 boosted)
  let should_engage :=
    decide (1 ≤ threat_level) || has_payment_request || decide (5 < message.length)
  { primary_scam_type := primary_scam_type
    threat_level := threat_level
    has_payment_request := has_payment_request
    urgency := has_urgency
    should_engage := should_engage
    scam_scores := scam_scores
    scammer_persona := detect_scammer_persona message }

/-! ### `PsychologicalFatigueTracker` -/

structure FatigueEvent where
  event_type : String
  contribution : Nat
deriving DecidableEq

/-- `self.fatigue_weights.get(event_type, 1)`. -/
def fatigue_weights (event_type : String) : Nat :=
  if event_type = "repetition_request" then 2
  else if event_type = "clarification_needed" then 2
  else if event_type = "technical_error" then 3
  else if event_type = "delay_tactic" then 2
  else if event_type = "wrong_information" then 4
  else 1

/-- `PsychologicalFatigueTracker.add_event`: the database append of one
fatigue event carrying the type's fixed contribution. -/
def add_event (events : List FatigueEvent) (event_type : String) : List FatigueEvent :=
  events ++ [⟨event_type, fatigue_weights event_type⟩]

/-- `PsychologicalFatigueTracker.calculate_score`: `min(100, total * 5)` where
`total` is the SQL `SUM(fatigue_contribution)` over the session's events
(`NULL`, i.e. no events, read as 0). -/
def calculate_score (events : List FatigueEvent) : Nat :=
  min 100 ((events.map (fun e => e.contribution)).sum * 5)

/-! ### Bank-account part of `IntelligenceExtractor.extract_all` -/

/-- Bank-account candidates of `IntelligenceExtractor.extract_all`
(src/full_honeypot_system.py lines 410-416): the matches of
`re.findall(r'\b\d{9,18}\b')` kept when their length is at least 10.
The source does not deduplicate this list. -/
def bank_account_candidates (text : String) : List String :=
  (((Honeypot.digitRuns text.data).filter
      (fun r => decide (9 ≤ r.length) && decide (r.length ≤ 18))).filter
      (fun r => decide (10 ≤ r.length))).map List.asString

end FullHoneypotSystem

/-! ## `enhanced_honeypot_agent.py`

`openrouter_integration.py` imports this module successfully inside the
repository, so its `ENHANCED_MODE` flag is true: scam types come from
`enhanced_honeypot_agent.detect_scam_type` and fallback replies prefer the
`response_hooks` tables below. -/

namespace EnhancedHoneypotAgent

open Honeypot

/-- `SCAM_PATTERNS`: name, keyword list, response hooks (dict insertion order). -/
def SCAM_PATTERNS : List (String × List String × List String) := [
  ("kyc_block",
    (["kyc", "incomplete", "blocked", "verify", "expire", "update kyc"],
     ["KYC? Maine toh sab submit kar diya tha...",
      "Block ho jayega? Mere saare paise usi account mein hain!",
      "Kab karna hai ye? Aaj hi?"])),
  ("refund",
    (["refund", "cashback", "return", "wrong payment", "double charge"],
     ["Refund? Par maine koi order cancel nahi kiya...",
      "Kitna amount hai? Kaunse order ka?",
      "Mere paas aa raha hai ya maine bheja?"])),
  ("account_upgrade",
    (["upgrade", "update account", "new version", "security update"],
     ["Upgrade? Par mere app toh automatic update ho jaate hain...",
      "Kya karna padega? Difficult toh nahi hoga?",
      "Kuch paisa lagega kya?"])),
  ("pension_block",
    (["pension", "subsidy", "government", "scheme", "aadhar"],
     ["Pension band ho jayega?? Main kaise jiyungi!",
      "Aadhar card chahiye? Wo kahan rakha hai...",
      "Mere husband ko phone karu?"])),
  ("digital_arrest",
    (["police", "arrest", "illegal", "case", "court", "cbi", "investigation"],
     ["Arrest?? Maine kya kiya? Main toh sirf ghar ka kaam karti hoon!",
      "Police? Mere husband ko phone karu jaldi?",
      "Kya case hai? Main toh kuch nahi jaanti!"]))]

/-- `detect_scam_type`: keyword-count argmax over `SCAM_PATTERNS`, strict
improvement only (the first maximum wins), `"unknown"` when no keyword hits. -/
def detect_scam_type (message : String) : String :=
  let ml := lowerStr message.data
  let best := SCAM_PATTERNS.foldl
      (fun acc p =>
        let score := countHits ml p.2.1
        if acc.1 < score then (score, some p.1) else acc)
      ((0 : Nat), (none : Option String))
  match best.2 with
  | some t => t
  | none => "unknown"

/-- `SCAM_PATTERNS[scam_type]["response_hooks"]` when the key exists. -/
def hooksFor (scam_type : String) : Option (List String) :=
  match SCAM_PATTERNS.find? (fun p => p.1 == scam_type) with
  | some p => some p.2.2
  | none => none

end EnhancedHoneypotAgent

/-! ## `openrouter_integration.py` -/

namespace OpenRouterIntegration

open Honeypot

/-- UPI-handle values of `UnifiedIntelligenceExtractor.extract_all`: the
matches of `\b[\w\.-]+@(?:paytm|…|[\w]+)\b` (IGNORECASE) in text order,
lower-cased, first occurrence of each value kept (the source also records a
constant confidence of 0.95 with each value; confidences are not modelled). -/
def upi_id_values (text : String) : List String :=
  dedupKeepFirst ((upiScan 1 text.data).map (fun mt => (lowerStr mt).asString))

/-- Bank-account values of `UnifiedIntelligenceExtractor.extract_all`
(lines 118-129): matches of `\b\d{10,18}\b` excluding those of length
exactly 10, first occurrence of each value kept. -/
def bank_account_values (text : String) : List String :=
  dedupKeepFirst ((((digitRuns text.data).filter
      (fun r => decide (10 ≤ r.length) && decide (r.length ≤ 18))).filter
      (fun r => !decide (r.length = 10))).map List.asString)

/-! ### `OpenRouterPersonaAgent.generate_response` -/

/-- `full_honeypot_system.PERSONA_CONFIG`, the persona dict
`AIEnhancedOrchestrator.__init__` passes to `OpenRouterPersonaAgent` in
standalone mode (the repository's own situation, since
`full_honeypot_system` imports cleanly).  It has no `"gender"` key.
Integer values are rendered as the strings the f-string would print. -/
def standalone_persona : List (String × String) :=
  [("name", "Mrs. Kavita"), ("age", "65"), ("location", "Mumbai"),
   ("occupation", "Retired Teacher")]

/-- The default persona dict of `OpenRouterPersonaAgent.__init__` (used only
when no persona config is passed). -/
def default_persona : List (String × String) :=
  [("name", "Mrs. Kavita Sharma"), ("gender", "female"), ("age", "52"),
   ("occupation", "homemaker"), ("language", "hinglish")]

/-- Python `d[k]` on a string dict: the value, or a `KeyError` carrying the
missing key, surfaced as `Except.error k`. -/
def dictGet (d : List (String × String)) (k : String) : Except String String :=
  match d.lookup k with
  | some v => Except.ok v
  | none => Except.error k

/-- Outcome of one `requests.post` attempt: an HTTP 200 with the reply text,
a non-200 status, or an exception (timeout, connection error, malformed JSON
body — anything the `except` arm of the source catches). -/
inductive ApiOutcome where
  | success (content : String)
  | httpError (code : Nat)
  | exc
deriving DecidableEq

/-- Python `str.strip(chars)` for a one-character class: drop from both ends. -/
def stripEnds (p : Char → Bool) (l : List Char) : List Char :=
  ((l.dropWhile p).reverse.dropWhile p).reverse

/-- `text[:200].rsplit('.', 1)[0]`: everything before the last `'.'`, or the
whole text when it has none. -/
def beforeLastDot (l : List Char) : List Char :=
  match l.reverse.dropWhile (fun c => c ≠ '.') with
  | [] => l
  | _ :: tail => tail.reverse

/-- The post-processing of a successful API reply:
`.strip('"').strip("'").strip()` and the truncation-to-sentence of replies
over 200 characters. -/
def cleanContent (content : String) : String :=
  let s1 := stripEnds (fun c => c == '"') content.data
  let s2 := stripEnds (fun c => c == '\'') s1
  let s3 := stripEnds (fun c => c.isWhitespace) s2
  if 200 < s3.length then (beforeLastDot (s3.take 200) ++ ['.']).asString
  else s3.asString

/-- The shrinking request timeouts of the three attempts:
`15 if attempt == 0 else (10 if attempt == 1 else 8)`. -/
def timeoutFor (attempt : Nat) : Nat :=
  if attempt = 0 then 15 else if attempt = 1 then 10 else 8

/-- `random.choice` from a fixed nonempty list, the random draw passed in as
an index taken modulo the length. -/
def listPick (l : List String) (i : Nat) : String := l.getD (i % l.length) ""

/-- The built-in fallback template table (`templates.get(scam_type,
templates['unknown'])`). -/
def fallback_templates (scam_type : String) : List String :=
  if scam_type = "bank_fraud" then
    ["Oh no! My account is blocked? What should I do sir?",
     "I'm very worried. How can I verify this?",
     "Should I share my OTP? Is this the bank?",
     "Let me check my bank app first... ek minute.",
     "What number should I call to confirm?",
     "Sir please help, I don't want my account blocked!",
     "Can you send verification link?",
     "I have the OTP ready. Where to send?",
     "This is urgent? Should I go to bank branch?",
     "Okay I will do as you say. What next?"]
  else if scam_type = "upi_fraud" then
    ["Really? I won cashback? Thank you so much!",
     "How do I claim this reward sir?",
     "Which UPI ID should I send to?",
     "Is this really from Paytm official?",
     "Do I need to pay anything to claim?",
     "Amazing! What details you need?",
     "Can I get in bank account instead?",
     "How long is this valid sir?",
     "Should I download any app?",
     "Okay sending details. Please confirm."]
  else if scam_type = "phishing" then
    ["iPhone for Rs 999? This is amazing!",
     "Let me click link... wait is it safe?",
     "How do I know this is genuine?",
     "Can you send COD? I'm not sure...",
     "What if I don't get the product?",
     "This seems too good. Are you sure?",
     "Should I share card details?",
     "Offer expires soon? Let me think...",
     "Can I call customer care first?",
     "Okay I will try. What after that?"]
  else
    ["Sorry, I don't understand clearly.",
     "What do you need from me exactly?",
     "Can you explain again?",
     "Who is this? Which company?",
     "How did you get my number?",
     "Is this some kind of offer?",
     "Please send more details."]

/-- `OpenRouterPersonaAgent._fallback_response` with `ENHANCED_MODE` true:
scam types present in `enhanced_honeypot_agent.SCAM_PATTERNS` draw a random
response hook; otherwise the built-in table is used, sequentially by turn
with probability 0.8 (`coin`), else a random pick. -/
def fallback_response (scam_type : String) (turn_count : Nat) (coin : Bool) (pick : Nat) : String :=
  match EnhancedHoneypotAgent.hooksFor scam_type with
  | some hooks => listPick hooks pick
  | none =>
      let responses := fallback_templates scam_type
      if turn_count ≤ responses.length && coin then responses.getD (turn_count - 1) ""
      else listPick responses pick

/-- The persona-dict lookups the f-string `user_prompt` of
`generate_response` performs, in Python's left-to-right evaluation order
(`persona['name']`, `persona['gender'].upper()`, `persona['occupation']`,
`persona['age']` at line 239, `persona['name']` again at line 249).  The
literal prompt text around them does not affect control flow and is elided;
what matters is that a missing key raises `KeyError` — surfaced here as
`Except.error key` — before any network attempt is made. -/
def buildUserPrompt (persona : List (String × String)) : Except String (List String) := do
  let name ← dictGet persona "name"
  let gender ← dictGet persona "gender"
  let occupation ← dictGet persona "occupation"
  let age ← dictGet persona "age"
  let name2 ← dictGet persona "name"
  Except.ok [name, gender, occupation, age, name2]

/-- The `for attempt in range(3)` retry loop of `generate_response`, driven
over the list of remaining attempt indices: an HTTP 200 returns the cleaned
content; a non-200 status or an exception retries, and the third failure
returns the fallback reply. -/
def runAttempts (outcomes : Nat → ApiOutcome) (fb : String) : List Nat → String
  | [] => fb
  | attempt :: rest =>
      match outcomes attempt with
      | ApiOutcome.success content => cleanContent content
      | _ => match rest with
             | [] => fb
             | _ :: _ => runAttempts outcomes fb rest

/-- Control flow of `OpenRouterPersonaAgent.generate_response`
(src/openrouter_integration.py lines 190-299), with the network and the
fallback's randomness as oracles.  `ENHANCED_MODE` holds in this repository,
so the scam type comes from `enhanced_honeypot_agent.detect_scam_type`.
Returns `Except.error key` exactly when the prompt construction raises a
`KeyError` for the persona key `key`. -/
def generate_response (persona : List (String × String)) (outcomes : Nat → ApiOutcome)
    (current_message : String) (turn_count : Nat) (coin : Bool) (pick : Nat) :
    Except String String := do
  let scam_type := EnhancedHoneypotAgent.detect_scam_type current_message
  let _fields ← buildUserPrompt persona
  Except.ok (runAttempts outcomes (fallback_response scam_type turn_count coin pick) [0, 1, 2])

end OpenRouterIntegration

/-! ## `guvi_hackathon_api.py` -/

namespace GuviHackathonApi

open Honeypot

/-! ### Fueled `finditer` drivers

The remaining patterns (phone numbers, URLs, e-mail addresses) are only ever
evaluated at concrete inputs in this development, so their scan drivers are
written with explicit fuel — one unit per text position, so `fuel = length`
never runs out, every matcher below consuming at least one character on
success.  `scanNoB` drives a pattern without a leading `\b`; `scanB` drives
one with a leading `\b`, tracking whether the previous character (initially
absent) is a word character, and after a match the word-ness of the match's
last character. -/

/-- `\b` between a previous character of word-ness `prevWord` and `c`. -/
def wordBoundaryAt (prevWord : Bool) (c : Char) : Bool :=
  if isWordChar c then !prevWord else prevWord

def scanNoBGo (try1 : List Char → Option (List Char × List Char)) :
    Nat → List Char → List (List Char)
  | 0, _ => []
  | _ + 1, [] => []
  | fuel + 1, c :: cs =>
      match try1 (c :: cs) with
      | some (mt, rest) => mt :: scanNoBGo try1 fuel rest
      | none => scanNoBGo try1 fuel cs

def scanNoB (try1 : List Char → Option (List Char × List Char)) (l : List Char) :
    List (List Char) := scanNoBGo try1 l.length l

def scanBGo (try1 : List Char → Option (List Char × List Char)) :
    Nat → Bool → List Char → List (List Char)
  | 0, _, _ => []
  | _ + 1, _, [] => []
  | fuel + 1, prevWord, c :: cs =>
      if wordBoundaryAt prevWord c then
        match try1 (c :: cs) with
        | some (mt, rest) =>
            mt :: scanBGo try1 fuel
              (match mt.getLast? with | some d => isWordChar d | none => true) rest
        | none => scanBGo try1 fuel (isWordChar c) cs
      else scanBGo try1 fuel (isWordChar c) cs

def scanB (try1 : List Char → Option (List Char × List Char)) (l : List Char) :
    List (List Char) := scanBGo try1 l.length false l

/-- Consume `pat` (given lower-case) case-insensitively; returns the original
consumed characters and the rest. -/
def stripCI : List Char → List Char → Option (List Char × List Char)
  | [], l => some ([], l)
  | p :: ps, c :: cs =>
      if c.toLower == p then (stripCI ps cs).map (fun q => (c :: q.1, q.2)) else none
  | _ :: _, [] => none

/-! ### `AggressiveIntelligenceExtractor` -/

def upi_providers : List String := [
  "paytm", "phonepe", "googlepay", "amazonpay", "bhim", "ybl",
  "axl", "icici", "sbi", "hdfc", "axis", "kotak", "okaxis",
  "okhdfcbank", "okicici", "oksbi", "ibl", "airtel", "fbl",
  "axisgo", "fakebank", "fakeupi", "scam", "fraud"]

def suspicious_keywords : List String := [
  "urgent", "immediately", "now", "quickly", "hurry", "fast",
  "blocked", "suspended", "frozen", "terminated", "deactivated",
  "expired", "expires", "expiring", "disable", "restricted",
  "account", "bank", "upi", "payment", "transaction", "transfer",
  "refund", "cashback", "money", "amount", "rupees", "rs", "inr",
  "otp", "password", "pin", "cvv", "verify", "confirm", "update",
  "kyc", "details", "information", "credentials",
  "won", "win", "prize", "reward", "congratulations", "selected",
  "lucky", "claim", "gift", "bonus", "offer", "deal", "discount",
  "click", "link", "call", "share", "send", "provide", "submit",
  "fraud", "scam", "phishing", "security", "risk", "alert",
  "sbi", "hdfc", "icici", "axis", "kotak", "pnb", "bob"]

/-- UPI extraction (pattern `\b[\w\.-]{3,}@(?:providers…|[\w]+)\b` via the
shared scanner with minimum local length 3, lower-cased, the source's
`'@' in upi` check and first-occurrence dedup), then the synthetic
`user@provider` fallback: the first provider mentioned in the text is
recorded when the pattern found nothing. -/
def extract_upiIds (text : List Char) : List String :=
  let tl := lowerStr text
  let fromPattern := (upiScan 3 text).map (fun mt => (lowerStr mt).asString)
  let deduped := fromPattern.foldl
      (fun acc upi => if upi.data.contains '@' && !acc.contains upi then acc ++ [upi] else acc) []
  upi_providers.foldl
      (fun acc provider =>
        if containsKw tl provider && acc.length == 0 then acc ++ ["user@" ++ provider] else acc)
      deduped

/-- `[-\s]` of the phone patterns. -/
def isSepChar (c : Char) : Bool := c == '-' || c.isWhitespace

def isDigit69 (c : Char) : Bool := decide ('6' ≤ c) && decide (c ≤ '9')

/-- Exactly `n` digits. -/
def takeDigits : Nat → List Char → Option (List Char × List Char)
  | 0, l => some ([], l)
  | n + 1, c :: cs =>
      if c.isDigit then (takeDigits n cs).map (fun p => (c :: p.1, p.2)) else none
  | _ + 1, [] => none

/-- `[6-9]\d{9}`. -/
def take10Phone (l : List Char) : Option (List Char × List Char) :=
  match l with
  | c :: cs =>
      if isDigit69 c then (takeDigits 9 cs).map (fun p => (c :: p.1, p.2)) else none
  | [] => none

/-- Trailing `\b` when the last matched character is a word character. -/
def atBoundary : List Char → Bool
  | [] => true
  | c :: _ => !isWordChar c

/-- Greedy `[-\s]?` before the continuation `k`, with backtracking. -/
def optSepThen (k : List Char → Option (List Char × List Char)) :
    List Char → Option (List Char × List Char)
  | s :: rest =>
      if isSepChar s then
        match k rest with
        | some (mt, rem) => some (s :: mt, rem)
        | none => k (s :: rest)
      else k (s :: rest)
  | [] => k []

/-- Pattern `\+91[-\s]?[6-9]\d{9}` (no word boundaries). -/
def tryPhonePlus91 : List Char → Option (List Char × List Char)
  | '+' :: '9' :: '1' :: rest =>
      (optSepThen take10Phone rest).map (fun p => ('+' :: '9' :: '1' :: p.1, p.2))
  | _ => none

/-- Pattern `\b91[6-9]\d{9}\b` (the leading `\b` is the driver's). -/
def tryPhone91 : List Char → Option (List Char × List Char)
  | '9' :: '1' :: rest =>
      match take10Phone rest with
      | some (ds, rem) => if atBoundary rem then some ('9' :: '1' :: ds, rem) else none
      | none => none
  | _ => none

/-- Pattern `\b[6-9]\d{9}\b` (the leading `\b` is the driver's). -/
def tryPhonePlain (l : List Char) : Option (List Char × List Char) :=
  match take10Phone l with
  | some (ds, rem) => if atBoundary rem then some (ds, rem) else none
  | none => none

/-- `\d{4}\b` tail of the dashed pattern. -/
def tryTail4 (r : List Char) : Option (List Char × List Char) :=
  match takeDigits 4 r with
  | some (d4, r3) => if atBoundary r3 then some (d4, r3) else none
  | none => none

/-- `\d{3}[-\s]?\d{4}\b` tail of the dashed pattern. -/
def tryTail34 (r : List Char) : Option (List Char × List Char) :=
  match takeDigits 3 r with
  | some (d3, r2) => (optSepThen tryTail4 r2).map (fun p => (d3 ++ p.1, p.2))
  | none => none

/-- Pattern `\b[6-9]\d{2}[-\s]?\d{3}[-\s]?\d{4}\b` (the leading `\b` is the
driver's; the two greedy optionals backtrack). -/
def tryPhoneDashed : List Char → Option (List Char × List Char)
  | c :: rest =>
      if isDigit69 c then
        match takeDigits 2 rest with
        | some (d2, r1) => (optSepThen tryTail34 r1).map (fun p => (c :: (d2 ++ p.1), p.2))
        | none => none
      else none
  | [] => none

/-- Phone extraction: the four patterns scanned in source order, each match
reduced to its digits (`re.sub(r'[^\d]', '', …)`), a leading country code
`91` stripped, and kept when 10 digits starting 6-9 and not seen before. -/
def extract_phoneNumbers (text : List Char) : List String :=
  let m1 := scanNoB tryPhonePlus91 text
  let m2 := scanB tryPhone91 text
  let m3 := scanB tryPhonePlain text
  let m4 := scanB tryPhoneDashed text
  (m1 ++ m2 ++ m3 ++ m4).foldl
    (fun acc mt =>
      let digits := mt.filter Char.isDigit
      let phone := if ['9', '1'].isPrefixOf digits then digits.drop 2 else digits
      if phone.length == 10 && (phone.headD ' ' == '6' || phone.headD ' ' == '7' ||
          phone.headD ' ' == '8' || phone.headD ' ' == '9') && !acc.contains phone.asString
      then acc ++ [phone.asString] else acc)
    []

/-- The negated stop class of the URL patterns: whitespace, angle brackets,
double quote, braces, pipe, backslash, caret, backtick, square brackets. -/
def isUrlStopChar (c : Char) : Bool :=
  c.isWhitespace || c == '<' || c == '>' || c == '"' || c == '{' || c == '}' ||
  c == '|' || c == '\\' || c == '^' || c == '`' || c == '[' || c == ']'

/-- The `[^…]+` body after a URL prefix: maximal nonempty run of non-stop
characters. -/
def urlBody (pre : List Char) (r : List Char) : Option (List Char × List Char) :=
  let body := r.takeWhile (fun c => !isUrlStopChar c)
  if body.isEmpty then none
  else some (pre ++ body, r.dropWhile (fun c => !isUrlStopChar c))

/-- Pattern `http[s]?://[^…]+` (IGNORECASE; the greedy `[s]?` backtracks). -/
def tryUrlHttp (l : List Char) : Option (List Char × List Char) :=
  match stripCI "https://".data l with
  | some (con, r) => urlBody con r
  | none =>
      match stripCI "http://".data l with
      | some (con, r) => urlBody con r
      | none => none

/-- Pattern `www\.[^…]+` (IGNORECASE). -/
def tryUrlWww (l : List Char) : Option (List Char × List Char) :=
  match stripCI "www.".data l with
  | some (con, r) => urlBody con r
  | none => none

/-- `[a-z0-9-]` under IGNORECASE. -/
def isDomainNameChar (c : Char) : Bool := c.isAlpha || c.isDigit || c == '-'

/-- The alternation `(?:com|net|org|in|co\.in)` in source order, IGNORECASE. -/
def tldAlt (r : List Char) : Option (List Char × List Char) :=
  match stripCI "com".data r with
  | some p => some p
  | none => match stripCI "net".data r with
    | some p => some p
    | none => match stripCI "org".data r with
      | some p => some p
      | none => match stripCI "in".data r with
        | some p => some p
        | none => stripCI "co.in".data r

/-- Pattern `\b[a-z0-9-]+\.(?:com|net|org|in|co\.in)[^\s]*` (IGNORECASE; the
leading `\b` is the driver's; the greedy `[a-z0-9-]+` faces `\.` outside its
class, so only the maximal run can match; `[^\s]*` is greedy and cannot
fail). -/
def tryDomainMention (l : List Char) : Option (List Char × List Char) :=
  let N := l.takeWhile isDomainNameChar
  match l.dropWhile isDomainNameChar with
  | '.' :: r1 =>
      if N.isEmpty then none
      else
        match tldAlt r1 with
        | some (t, r2) =>
            some (N ++ '.' :: (t ++ r2.takeWhile (fun c => !c.isWhitespace)),
                  r2.dropWhile (fun c => !c.isWhitespace))
        | none => none
  | _ => none

/-- URL extraction: the three patterns scanned in source order, results
deduplicated across patterns by first occurrence. -/
def extract_phishingLinks (text : List Char) : List String :=
  dedupKeepFirst
    ((scanNoB tryUrlHttp text ++ scanNoB tryUrlWww text ++ scanB tryDomainMention text).map
      List.asString)

/-- `[A-Za-z0-9._%+-]`. -/
def isEmailLocalChar (c : Char) : Bool :=
  c.isAlphanum || c == '.' || c == '_' || c == '%' || c == '+' || c == '-'

/-- `[A-Za-z0-9.-]`. -/
def isEmailDomainChar (c : Char) : Bool := c.isAlphanum || c == '.' || c == '-'

/-- `[A-Z|a-z]` — the source's class contains a literal `'|'`. -/
def isTldChar (c : Char) : Bool := c.isAlpha || c == '|'

/-- `\b` between a last matched character and what follows (end of text: a
boundary iff that character is a word character). -/
def boundaryAfter (lastc : Char) : List Char → Bool
  | [] => isWordChar lastc
  | c :: _ => isWordChar lastc != isWordChar c

/-- Backtracking for the greedy `[A-Z|a-z]{2,}\b` tail of the e-mail pattern:
the first argument is the reversed candidate run, shortened from the right
until the trailing `\b` holds (at least two characters must remain). -/
def tldBacktrackRev : List Char → List Char → Option (List Char × List Char)
  | [], _ => none
  | [_], _ => none
  | lastc :: revT, r =>
      if boundaryAfter lastc r then some ((lastc :: revT).reverse, r)
      else tldBacktrackRev revT (lastc :: r)

/-- `[A-Z|a-z]{2,}\b` with greedy backtracking. -/
def tryEmailTld (l : List Char) : Option (List Char × List Char) :=
  tldBacktrackRev (l.takeWhile isTldChar).reverse (l.dropWhile isTldChar)

/-- Backtracking for the greedy `[A-Za-z0-9.-]+\.` of the e-mail pattern: the
dot splitting domain from TLD is searched right-to-left inside the maximal
domain run (the first argument is the reversed unconsumed part of the run,
the second the text after the current split point). -/
def emailDomainGo : List Char → List Char → Option (List Char × List Char)
  | [], _ => none
  | c :: revB, tail =>
      if c == '.' && !revB.isEmpty then
        match tryEmailTld tail with
        | some (t, rem) => some (revB.reverse ++ '.' :: t, rem)
        | none => emailDomainGo revB (c :: tail)
      else emailDomainGo revB (c :: tail)

/-- Pattern `\b[A-Za-z0-9._%+-]+@[A-Za-z0-9.-]+\.[A-Z|a-z]{2,}\b` (the
leading `\b` is the driver's; `@` is outside the local class, so only the
maximal local run can match). -/
def tryEmail (l : List Char) : Option (List Char × List Char) :=
  let A := l.takeWhile isEmailLocalChar
  match l.dropWhile isEmailLocalChar with
  | '@' :: r1 =>
      if A.isEmpty then none
      else
        match emailDomainGo (r1.takeWhile isEmailDomainChar).reverse
            (r1.dropWhile isEmailDomainChar) with
        | some (dom, rem) => some (A ++ '@' :: dom, rem)
        | none => none
  | _ => none

/-- E-mail extraction: matches lower-cased, excluded when already among the
UPI ids, deduplicated by first occurrence. -/
def extract_emailAddresses (text : List Char) (upiIds : List String) : List String :=
  (scanB tryEmail text).foldl
    (fun acc mt =>
      let email := (lowerStr mt).asString
      if !upiIds.contains email && !acc.contains email then acc ++ [email] else acc)
    []

/-- Bank-account extraction: matches of `\b\d{9}\b|\b\d{11,18}\b`,
deduplicated by first occurrence. -/
def extract_bankAccountsL (text : List Char) : List String :=
  dedupKeepFirst
    (((digitRuns text).filter
        (fun r => r.length == 9 || (decide (11 ≤ r.length) && decide (r.length ≤ 18)))).map
      List.asString)

/-- Suspicious-keyword extraction.  The source builds `list(set(found))`,
whose order CPython leaves unspecified; the embedding fixes first-occurrence
order (the keyword table has no duplicates, so the deduplication is a
formality), which is adequate for every property proved here — none depends
on keyword order. -/
def extract_suspiciousKeywords (tl : List Char) : List String :=
  dedupKeepFirst (suspicious_keywords.filter (containsKw tl))

/-- Per-call extraction result of `AggressiveIntelligenceExtractor.extract`
(the six keys of its `intelligence` dict, in insertion order). -/
structure Extracted where
  upiIds : List String
  phoneNumbers : List String
  bankAccounts : List String
  phishingLinks : List String
  emailAddresses : List String
  suspiciousKeywords : List String
deriving DecidableEq

def Extracted.empty : Extracted := ⟨[], [], [], [], [], []⟩

/-- `AggressiveIntelligenceExtractor.extract` (lines 124-230): empty text
short-circuits; otherwise the six extractions in source order, then the
step-7 fallback when every list came out empty. -/
def extract (text : String) : Extracted :=
  if text.isEmpty then Extracted.empty
  else
    let tc := text.data
    let tl := lowerStr tc
    let upiIds := extract_upiIds tc
    let phones := extract_phoneNumbers tc
    let links := extract_phishingLinks tc
    let emails := extract_emailAddresses tc upiIds
    let banks := extract_bankAccountsL tc
    let kws := extract_suspiciousKeywords tl
    let anyFound := !upiIds.isEmpty || !phones.isEmpty || !banks.isEmpty ||
        !links.isEmpty || !emails.isEmpty || !kws.isEmpty
    let kws2 := if anyFound then kws
      else
        (if hasDigitRun4 tc then ["contains_numbers"] else []) ++
          ["account", "bank", "money", "pay", "cash", "rupee"].filter (containsKw tl)
    { upiIds := upiIds, phoneNumbers := phones, bankAccounts := banks,
      phishingLinks := links, emailAddresses := emails, suspiciousKeywords := kws2 }

/-! ### `SessionManager` -/

/-- `SessionManager.detect_scam_type` (lines 350-380). -/
def detect_scam_type (text : String) : String × Nat :=
  let tl := lowerStr text.data
  let bank_score := 3 * countHits tl ["bank", "account", "otp", "blocked", "suspended", "kyc"]
  let upi_score := 2 * countHits tl ["upi", "paytm", "phonepe", "cashback", "prize", "won", "reward"]
  let phishing_score := 2 * countHits tl ["click", "link", "http", "www", "offer", "deal", "expires"]
  let urgency_boost :=
    if ["urgent", "immediately", "now", "quickly"].any (containsKw tl) then 3 else 0
  let scores := [("bank_fraud", bank_score + urgency_boost), ("upi_fraud", upi_score),
    ("phishing", phishing_score)]
  let scam_type := (argmaxFirst scores).1
  let threat0 := min 10 (maxVal scores)
  let threat_level := if 0 < threat0 then max 5 threat0 else threat0
  (scam_type, threat_level)

/-- The session's intelligence dict (the five keys of
`get_or_create_session`, in insertion order). -/
structure Intelligence where
  bankAccounts : List String
  upiIds : List String
  phishingLinks : List String
  phoneNumbers : List String
  suspiciousKeywords : List String
deriving DecidableEq

def Intelligence.empty : Intelligence := ⟨[], [], [], [], []⟩

/-- One key of `SessionManager.merge_intelligence`: append each truthy item
not already present (string comparison).  The source's camelCase fall-back
renaming of keys is a no-op here: the extractor's keys already match. -/
def mergeList (cur new : List String) : List String :=
  new.foldl (fun acc item => if item ≠ "" && !acc.contains item then acc ++ [item] else acc) cur

/-- `SessionManager.merge_intelligence` (lines 406-417). -/
def merge_intelligence (s : Intelligence) (e : Extracted) : Intelligence :=
  { bankAccounts := mergeList s.bankAccounts e.bankAccounts
    upiIds := mergeList s.upiIds e.upiIds
    phishingLinks := mergeList s.phishingLinks e.phishingLinks
    phoneNumbers := mergeList s.phoneNumbers e.phoneNumbers
    suspiciousKeywords := mergeList s.suspiciousKeywords e.suspiciousKeywords }

def Intelligence.anyNonempty (i : Intelligence) : Bool :=
  !i.bankAccounts.isEmpty || !i.upiIds.isEmpty || !i.phishingLinks.isEmpty ||
    !i.phoneNumbers.isEmpty || !i.suspiciousKeywords.isEmpty

/-- `IntelligentResponseGenerator.generate` (lines 244-319). -/
def generate (extracted : Extracted) (turn_count : Nat) (scam_type : String) : String :=
  if scam_type = "bank_fraud" then
    if turn_count = 1 then
      match extracted.upiIds with
      | u :: _ => "Oh no! My account is blocked? Should I send details to " ++ u ++
          "? Is that the official bank UPI?"
      | [] =>
        match extracted.phoneNumbers with
        | p :: _ => "This is very urgent! Should I call " ++ p ++
            " number? Is this really from bank?"
        | [] => "Oh my god! My account will be blocked? What should I do sir? How do I verify?"
    else if turn_count = 2 then
      "I'm very worried. Can you tell me exactly what information you need? Should I go to bank branch?"
    else if turn_count = 3 then
      match extracted.suspiciousKeywords with
      | k :: ks => "You mentioned " ++ String.intercalate ", " ((k :: ks).take 2) ++
          ". Can you explain this more? I'm confused..."
      | [] => "Okay sir, I will provide details. But first, can you confirm your employee ID or ticket number?"
    else "Let me check my account... App is opening... What was that number you mentioned again?"
  else if scam_type = "upi_fraud" then
    if turn_count = 1 then
      match extracted.upiIds with
      | u :: _ => "Really? I won cashback! Should I send money to " ++ u ++ "? How much?"
      | [] => "Congratulations to me! How do I claim this cashback reward? What details you need?"
    else if turn_count = 2 then
      match extracted.phoneNumbers with
      | p :: _ => "Should I call " ++ p ++ " to verify? Is this Paytm customer care number?"
      | [] => "Which UPI app should I use - Paytm or PhonePe? Please tell me step by step."
    else if turn_count = 3 then
      "I'm opening my UPI app now... it's asking for PIN. What should I enter? Tell me slowly."
    else "Wait, my app is showing different amount. You said cashback is how much exactly?"
  else if scam_type = "phishing" then
    if turn_count = 1 then
      match extracted.phishingLinks with
      | u :: _ => "This link " ++ (u.data.take 30).asString ++
          "... looks long. Is it safe to click? How do I know?"
      | [] => "iPhone at Rs 999? This is amazing deal! Is this really official website?"
    else if turn_count = 2 then
      "Before I click, can you tell me - will it ask for my card details? Is COD available?"
    else if turn_count = 3 then
      match extracted.emailAddresses with
      | e :: _ => "Your email is " ++ e ++ "? Let me verify this is real Amazon first..."
      | [] => "The website is asking for OTP. Should I share it? What happens after I submit?"
    else "I tried clicking but page is not loading. Can you send the link again? Or give me phone number to call?"
  else
    let responses := [
      "I'm not sure I understand completely. Can you explain again in simple words?",
      "What information exactly do you need from me? Please list clearly.",
      "Is this really legitimate? How can I verify this is not fraud?",
      "Let me take a minute to check... my phone is slow. What was that detail you mentioned?"]
    responses.getD (min (turn_count - 1) (responses.length - 1)) ""

/-- One session of `SessionManager.sessions` (the dict of
`get_or_create_session`; `callback_sent` starts absent, i.e. falsy). -/
structure Session where
  messages : List (String × String)
  intelligence : Intelligence
  scam_detected : Bool
  scam_type : String
  threat_level : Nat
  turn_count : Nat
  callback_sent : Bool
deriving DecidableEq

def Session.fresh : Session := ⟨[], Intelligence.empty, false, "unknown", 0, 0, false⟩

/-- One inbound turn with its oracles: `aiResponse` is the
AI-orchestrator's reply when one is configured and its call succeeded
(`none` otherwise — no orchestrator or any exception, both of which the
source answers with the template generator), and `deliveryOk` is whether the
callback POST of `send_callback` would succeed (on failure the source logs
the error and leaves `callback_sent` unset). -/
structure TurnInput where
  text : String
  sender : String
  aiResponse : Option String
  deliveryOk : Bool
deriving DecidableEq

/-- What one `handle_message` call returns, plus the callback bookkeeping:
`should_callback` is the decision of lines 485-489, `sent_report` whether
this turn actually posted the report (decision true, not sent before, POST
succeeded). -/
structure TurnOutput where
  engaged : Bool
  response : String
  threat_level : Nat
  scam_type : String
  intelligence : Intelligence
  turn_count : Nat
  should_callback : Bool
  sent_report : Bool
deriving DecidableEq

/-- `SessionManager.handle_message` (lines 419-504) together with the
callback emission of lines 491-492 and `send_callback` (lines 506-531). -/
def handle_message (s : Session) (inp : TurnInput) : Session × TurnOutput :=
  let turn := s.turn_count + 1
  let extracted := extract inp.text
  let intel := merge_intelligence s.intelligence extracted
  let st_tl := detect_scam_type inp.text
  let st := st_tl.1
  let tl := st_tl.2
  let scam_type := if st ≠ "unknown" then st else s.scam_type
  let threat_level := max s.threat_level tl
  let scam_detected := decide (5 ≤ tl)
  let response :=
    match inp.aiResponse with
    | some r =>
        if scam_detected && decide (10 < r.length) then r else generate extracted turn scam_type
    | none => generate extracted turn scam_type
  let messages := s.messages ++ [(inp.sender, inp.text), ("honeypot", response)]
  let should_callback := scam_detected && decide (3 ≤ turn) && intel.anyNonempty
  let sent := should_callback && !s.callback_sent && inp.deliveryOk
  let callback_sent := s.callback_sent || sent
  (⟨messages, intel, scam_detected, scam_type, threat_level, turn, callback_sent⟩,
   ⟨scam_detected, response, tl, st, intel, turn, should_callback, sent⟩)

/-- A session's state after a sequence of processed turns. -/
def runSession : Session → List TurnInput → Session
  | s, [] => s
  | s, inp :: rest => runSession (handle_message s inp).1 rest

/-- The per-turn outputs of a sequence of processed turns. -/
def runOutputs : Session → List TurnInput → List TurnOutput
  | _, [] => []
  | s, inp :: rest => (handle_message s inp).2 :: runOutputs (handle_message s inp).1 rest

/-- How many turns of the sequence actually posted the report. -/
def sentReportCount (s : Session) (inps : List TurnInput) : Nat :=
  ((runOutputs s inps).filter (fun o => o.sent_report)).length

/-- A text-only turn: template replies, callback delivery succeeding. -/
def plainTurn (text : String) : TurnInput := ⟨text, "scammer", none, true⟩

end GuviHackathonApi

/-! ## Claim-side formulas (from the spec's words, for comparison) -/

namespace Spec

open Honeypot FullHoneypotSystem

/-- Threat score exactly as claim C1 words it: bucket sum clamped to 10, the
four fixed bonuses, then — only if at least one signal fired — a clamp to
[3,10], and otherwise 0. -/
def c1_claimThreat (message : String) : Nat :=
  let ml := lowerStr message.data
  let bucketTotal := (scam_patterns.map (fun p => bucketScore ml p.2)).sum
  let hasPay := ["pay", "send", "upi", "paytm", "transfer"].any (containsKw ml)
  let hasUrgency := urgency_keywords.any (containsKw ml)
  let hasThreat := ["block", "suspend", "arrest", "police"].any (containsKw ml)
  let hasNumber := hasDigitRun4 message.data
  let boosted := min 10 bucketTotal + (if hasPay then 3 else 0) + (if hasUrgency then 2 else 0)
      + (if hasThreat then 2 else 0) + (if hasNumber then 1 else 0)
  if decide (0 < bucketTotal) || hasPay || hasUrgency || hasThreat || hasNumber then
    min 10 (max 3 boosted)
  else 0

/-- Threat score as the code computes it (the amended C1): the clamp to
[3,10] is applied unconditionally, signals or not. -/
def c1_amendedThreat (message : String) : Nat :=
  let ml := lowerStr message.data
  let bucketTotal := (scam_patterns.map (fun p => bucketScore ml p.2)).sum
  let hasPay := ["pay", "send", "upi", "paytm", "transfer"].any (containsKw ml)
  let hasUrgency := urgency_keywords.any (containsKw ml)
  let hasThreat := ["block", "suspend", "arrest", "police"].any (containsKw ml)
  let hasNumber := hasDigitRun4 message.data
  let boosted := min 10 bucketTotal + (if hasPay then 3 else 0) + (if hasUrgency then 2 else 0)
      + (if hasThreat then 2 else 0) + (if hasNumber then 1 else 0)
  min 10 (max 3 boosted)

/-- Bank-account candidates exactly as claim C5 words them: the word-bounded
digit runs of the text of length 9 to 18 inclusive, excluding runs of exactly
10 digits. -/
def c5_bankCandidates (text : String) : List String :=
  ((Honeypot.digitRuns text.data).filter
      (fun r => decide (9 ≤ r.length) && decide (r.length ≤ 18) && !decide (r.length = 10))).map
    List.asString

/-- A syntactically valid payment handle `local-part@provider-token`: a
nonempty run over the local class `[\w.-]`, an `@`, a nonempty word run. -/
def validHandle (h : List Char) : Bool :=
  match h.dropWhile Honeypot.isLocalChar with
  | '@' :: P =>
      !(h.takeWhile Honeypot.isLocalChar).isEmpty && !P.isEmpty && P.all Honeypot.isWordChar
  | _ => false

/-- Worker for `occursBounded`: the Boolean tracks whether the character
before the current position is a word character. -/
def occursBoundedGo (h : List Char) : Bool → List Char → Bool
  | prevWord, t =>
      (h.isPrefixOf t && !prevWord &&
        (match t.drop h.length with
         | [] => true
         | d :: _ => !Honeypot.isWordChar d)) ||
      (match t with
       | [] => false
       | c :: cs => occursBoundedGo h (Honeypot.isWordChar c) cs)

/-- `h` occurs in `t` bounded by word boundaries: the characters immediately
before and after the occurrence (when present) are not word characters. -/
def occursBounded (h t : List Char) : Bool := occursBoundedGo h false t

/-- Callback decision exactly as claim C3 words it: the session has at some
turn been classified engage-worthy, the turn count is at least 3, and either
some intelligence category is non-empty or the threat level is at least 7. -/
def c3_claimDecision (everEngaged : Bool) (turn_count : Nat)
    (intel : GuviHackathonApi.Intelligence) (threat_level : Nat) : Bool :=
  everEngaged && decide (3 ≤ turn_count) &&
    (intel.anyNonempty || decide (7 ≤ threat_level))

end Spec

/-! ## General lemmas -/

namespace Honeypot

theorem mem_dedup_foldl {α : Type} [DecidableEq α] (x : α) :
    ∀ (l acc : List α),
      (x ∈ l.foldl (fun acc y => if y ∈ acc then acc else acc ++ [y]) acc) ↔
        x ∈ acc ∨ x ∈ l := by
  intro l
  induction l with
  | nil => intro acc; simp
  | cons a l ih =>
      intro acc
      simp only [List.foldl_cons]
      rw [ih]
      by_cases h : a ∈ acc
      · simp only [if_pos h, List.mem_cons]
        constructor
        · rintro (hx | hx)
          · exact Or.inl hx
          · exact Or.inr (Or.inr hx)
        · rintro (hx | rfl | hx)
          · exact Or.inl hx
          · exact Or.inl h
          · exact Or.inr hx
      · simp only [if_neg h, List.mem_append, List.mem_singleton, List.mem_cons]
        tauto

theorem nodup_dedup_foldl {α : Type} [DecidableEq α] :
    ∀ (l acc : List α), acc.Nodup →
      (l.foldl (fun acc y => if y ∈ acc then acc else acc ++ [y]) acc).Nodup := by
  intro l
  induction l with
  | nil => intro acc h; simpa using h
  | cons a l ih =>
      intro acc h
      simp only [List.foldl_cons]
      by_cases ha : a ∈ acc
      · rw [if_pos ha]; exact ih acc h
      · rw [if_neg ha]
        refine ih _ ?_
        simp [List.nodup_append, h, ha]

theorem mem_dedupKeepFirst {α : Type} [DecidableEq α] {x : α} {l : List α} :
    x ∈ dedupKeepFirst l ↔ x ∈ l := by
  unfold dedupKeepFirst
  rw [mem_dedup_foldl]
  simp

theorem nodup_dedupKeepFirst {α : Type} [DecidableEq α] (l : List α) :
    (dedupKeepFirst l).Nodup :=
  nodup_dedup_foldl l [] (by simp)

theorem mem_map_asString {r : List Char} {l : List (List Char)} :
    r.asString ∈ l.map List.asString ↔ r ∈ l := by
  constructor
  · intro hm
    rcases List.mem_map.mp hm with ⟨a, ha, he⟩
    have ha2 : a = r := by
      have := congrArg String.data he
      simpa using this
    exact ha2 ▸ ha
  · intro h
    exact List.mem_map_of_mem _ h

end Honeypot

/-! ## Claims C1, C2, C10 (`ScamAnalyzer.analyze`) and C8 (fatigue) -/

/-- C1 (counterexample): on the signal-free message "hello" the claim's
formula yields threat 0, while `analyze` yields 3 — the code's clamp to
[3,10] is unconditional, so the "otherwise 0" branch of the claim is false. -/
theorem c1_counterexample :
    (FullHoneypotSystem.analyze "hello").threat_level = 3 ∧ Spec.c1_claimThreat "hello" = 0 := by
  decide

/-- C1 (amended): for every message, the analyzer's threat score equals the
bucket sum clamped to 10, plus +3 for a payment cue, +2 for an urgency cue,
+2 for an explicit-threat cue, +1 for a digit run of 4+, the result always
clamped to the interval [3,10] (also when no signal fired). -/
theorem c1_threat_formula (message : String) :
    (FullHoneypotSystem.analyze message).threat_level = Spec.c1_amendedThreat message := rfl

/-- C2 (counterexample): on the empty message the analyzer does not return
threat 0 and engage `false` — it returns threat 3 and engages. -/
theorem c2_counterexample :
    ¬ ((FullHoneypotSystem.analyze "").threat_level = 0 ∧
       (FullHoneypotSystem.analyze "").should_engage = false) := by
  decide

/-- C2 (amended): the analyzer is total (it is a Lean function), and on the
empty message returns category `unknown`, threat level 3, `should_engage`
true, and persona `neutral`. -/
theorem c2_empty_analysis :
    (FullHoneypotSystem.analyze "").primary_scam_type = "unknown" ∧
    (FullHoneypotSystem.analyze "").threat_level = 3 ∧
    (FullHoneypotSystem.analyze "").should_engage = true ∧
    (FullHoneypotSystem.analyze "").scammer_persona = "neutral" := by
  decide

/-- C10: every input, the empty string included, is classified engage-worthy:
the threat level is clamped to at least 3, so the `threat_level >= 1`
disjunct of `should_engage` always holds. -/
theorem c10_always_engages (message : String) :
    (FullHoneypotSystem.analyze message).should_engage = true := by
  have h : ∀ b : Nat, decide (1 ≤ min 10 (max 3 b)) = true := by
    intro b
    simp only [decide_eq_true_eq]
    omega
  show (decide (1 ≤ min 10 (max 3 _)) || _ || _) = true
  rw [h]
  simp

/-- C8: recording a fatigue event appends exactly one event carrying the
type's fixed weight, that weight is positive, types outside the fixed table
weigh 1, and the recomputed score is `min 100 (5 * sum of recorded weights)`. -/
theorem c8_fatigue_recording (events : List FullHoneypotSystem.FatigueEvent)
    (event_type : String) :
    FullHoneypotSystem.add_event events event_type
        = events ++ [⟨event_type, FullHoneypotSystem.fatigue_weights event_type⟩] ∧
    1 ≤ FullHoneypotSystem.fatigue_weights event_type ∧
    (event_type ∉ ["repetition_request", "clarification_needed", "technical_error",
        "delay_tactic", "wrong_information"] →
      FullHoneypotSystem.fatigue_weights event_type = 1) ∧
    FullHoneypotSystem.calculate_score events
        = min 100 ((events.map (fun e => e.contribution)).sum * 5) := by
  refine ⟨rfl, ?_, ?_, rfl⟩
  · unfold FullHoneypotSystem.fatigue_weights
    split_ifs <;> omega
  · intro h
    unfold FullHoneypotSystem.fatigue_weights
    split_ifs with h1 h2 h3 h4 h5 <;> simp_all

/-- C8 witness: the theorem applied at the concrete unknown type "hello_type"
and an empty event list, discharging the membership hypothesis there. -/
theorem c8_fatigue_recording_witness :
    FullHoneypotSystem.fatigue_weights "hello_type" = 1 ∧
    FullHoneypotSystem.add_event [] "hello_type"
      = [⟨"hello_type", FullHoneypotSystem.fatigue_weights "hello_type"⟩] := by
  refine ⟨(c8_fatigue_recording [] "hello_type").2.2.1 ?_, (c8_fatigue_recording [] "hello_type").1⟩
  decide

/-! ## Claim C5 (bank-account candidates) -/

/-- C5 (counterexample): a word-bounded 9-digit run is a candidate per the
claim but the `UnifiedIntelligenceExtractor` (pattern `\b\d{10,18}\b`) misses
it, and an exactly-10-digit run is excluded per the claim but the full
system's `IntelligenceExtractor` (pattern `\b\d{9,18}\b` filtered to length
at least 10) returns it. -/
theorem c5_counterexample :
    Spec.c5_bankCandidates "ac 123456789" = ["123456789"] ∧
    OpenRouterIntegration.bank_account_values "ac 123456789" = [] ∧
    Spec.c5_bankCandidates "ac 1234567890" = [] ∧
    FullHoneypotSystem.bank_account_candidates "ac 1234567890" = ["1234567890"] := by
  decide

/-- C5 (amended): the claim's characterisation — word-bounded digit runs of
length 9-18, excluding exactly-10-digit runs — is exactly what the
`AggressiveIntelligenceExtractor` of `guvi_hackathon_api.py` returns, while
the `UnifiedIntelligenceExtractor` returns exactly the runs of length 11-18
and the full system's `IntelligenceExtractor` exactly those of length 10-18. -/
theorem c5_bank_account_runs (text : String) (r : List Char) :
    (r.asString ∈ GuviHackathonApi.extract_bankAccountsL text.data ↔
        r.asString ∈ Spec.c5_bankCandidates text) ∧
    (r.asString ∈ OpenRouterIntegration.bank_account_values text ↔
        r ∈ Honeypot.digitRuns text.data ∧ 11 ≤ r.length ∧ r.length ≤ 18) ∧
    (r.asString ∈ FullHoneypotSystem.bank_account_candidates text ↔
        r ∈ Honeypot.digitRuns text.data ∧ 10 ≤ r.length ∧ r.length ≤ 18) := by
  refine ⟨?_, ?_, ?_⟩
  · simp only [GuviHackathonApi.extract_bankAccountsL, Spec.c5_bankCandidates,
      Honeypot.mem_dedupKeepFirst, Honeypot.mem_map_asString, List.mem_filter,
      Bool.and_eq_true, Bool.or_eq_true, Bool.not_eq_true', decide_eq_true_eq,
      decide_eq_false_iff_not, beq_iff_eq]
    constructor
    · rintro ⟨hr, hc⟩
      exact ⟨hr, by omega⟩
    · rintro ⟨hr, hc⟩
      exact ⟨hr, by omega⟩
  · simp only [OpenRouterIntegration.bank_account_values, Honeypot.mem_dedupKeepFirst,
      Honeypot.mem_map_asString, List.mem_filter, Bool.and_eq_true, Bool.not_eq_true',
      decide_eq_true_eq, decide_eq_false_iff_not]
    constructor
    · rintro ⟨⟨hr, hc⟩, hc2⟩
      exact ⟨hr, by omega⟩
    · rintro ⟨hr, hc⟩
      exact ⟨⟨hr, by omega⟩, by omega⟩
  · simp only [FullHoneypotSystem.bank_account_candidates, Honeypot.mem_map_asString,
      List.mem_filter, Bool.and_eq_true, decide_eq_true_eq]
    constructor
    · rintro ⟨⟨hr, hc⟩, hc2⟩
      exact ⟨hr, by omega⟩
    · rintro ⟨hr, hc⟩
      exact ⟨⟨hr, by omega⟩, by omega⟩

/-! ## Scanner lemmas for claim C6 -/

namespace Honeypot

theorem not_word_of_not_local {c : Char} (h : isLocalChar c = false) : isWordChar c = false := by
  unfold isLocalChar at h
  rcases hw : isWordChar c
  · rfl
  · rw [hw] at h; simp at h

theorem takeWhile_all_append {p : Char → Bool} :
    ∀ (xs ys : List Char), (∀ x ∈ xs, p x = true) →
      (xs ++ ys).takeWhile p = xs ++ ys.takeWhile p := by
  intro xs
  induction xs with
  | nil => intro ys _; simp
  | cons a xs ih =>
      intro ys h
      simp only [List.cons_append, List.takeWhile_cons, h a (by simp)]
      rw [ih ys (fun x hx => h x (by simp [hx]))]
      simp

theorem dropWhile_all_append {p : Char → Bool} :
    ∀ (xs ys : List Char), (∀ x ∈ xs, p x = true) →
      (xs ++ ys).dropWhile p = ys.dropWhile p := by
  intro xs
  induction xs with
  | nil => intro ys _; simp
  | cons a xs ih =>
      intro ys h
      simp only [List.cons_append, List.dropWhile_cons, h a (by simp), if_true]
      exact ih ys (fun x hx => h x (by simp [hx]))

theorem takeWhile_append_barrier {p : Char → Bool} {b : Char} (hb : p b = false) :
    ∀ (xs ys : List Char), (xs ++ b :: ys).takeWhile p = xs.takeWhile p := by
  intro xs
  induction xs with
  | nil => intro ys; simp [List.takeWhile_cons, hb]
  | cons a xs ih =>
      intro ys
      simp only [List.cons_append, List.takeWhile_cons]
      rcases hp : p a
      · simp
      · simp [ih ys]

theorem dropWhile_append_barrier {p : Char → Bool} {b : Char} (hb : p b = false) :
    ∀ (xs ys : List Char), (xs ++ b :: ys).dropWhile p = xs.dropWhile p ++ b :: ys := by
  intro xs
  induction xs with
  | nil => intro ys; simp [List.dropWhile_cons, hb]
  | cons a xs ih =>
      intro ys
      simp only [List.cons_append, List.dropWhile_cons]
      rcases hp : p a
      · simp
      · simp [ih ys]

/-- `isLocalChar '@' = false` and `isWordChar '@' = false`. -/
theorem at_sign_not_local : isLocalChar '@' = false := by decide

/-- The zeta-reduced shape of `upiTry`. -/
theorem upiTry_eq (m : Nat) (l : List Char) :
    upiTry m l =
      match l.dropWhile isLocalChar with
      | '@' :: rest2 =>
          if m ≤ (l.takeWhile isLocalChar).length ∧ rest2.takeWhile isWordChar ≠ [] then
            some (l.takeWhile isLocalChar ++ '@' :: rest2.takeWhile isWordChar,
              rest2.dropWhile isWordChar)
          else none
      | _ => none := rfl

/-- `upiTry` when the first non-local character is the `@`. -/
theorem upiTry_of_drop_at {m : Nat} {l rest2 : List Char}
    (h : l.dropWhile isLocalChar = '@' :: rest2) :
    upiTry m l =
      if m ≤ (l.takeWhile isLocalChar).length ∧ rest2.takeWhile isWordChar ≠ [] then
        some (l.takeWhile isLocalChar ++ '@' :: rest2.takeWhile isWordChar,
          rest2.dropWhile isWordChar)
      else none := by
  rw [upiTry_eq, h]
  rfl

/-- `upiTry` fails when the first non-local character is not an `@`. -/
theorem upiTry_of_drop_ne {m : Nat} {l : List Char} {b : Char} {R : List Char}
    (h : l.dropWhile isLocalChar = b :: R) (hb : b ≠ '@') : upiTry m l = none := by
  rw [upiTry_eq, h]
  split
  · rename_i heq
    have hb2 : b = '@' := by injection heq
    exact absurd hb2 hb
  · rfl

/-- `upiTry` fails when every character is of the local class. -/
theorem upiTry_of_drop_nil {m : Nat} {l : List Char}
    (h : l.dropWhile isLocalChar = []) : upiTry m l = none := by
  rw [upiTry_eq, h]

/-- A successful `upiTry` at the start of a well-delimited handle consumes
exactly the handle. -/
theorem upiTry_start {m : Nat} {c : Char} {L P post : List Char}
    (hL : ∀ x ∈ c :: L, isLocalChar x = true)
    (hm : m ≤ (c :: L).length)
    (hP : P ≠ []) (hPw : ∀ x ∈ P, isWordChar x = true)
    (hpost : ∀ d ∈ post.head?, isWordChar d = false) :
    upiTry m ((c :: L) ++ ('@' :: (P ++ post))) = some ((c :: L) ++ '@' :: P, post) := by
  have hdrop : ((c :: L) ++ ('@' :: (P ++ post))).dropWhile isLocalChar = '@' :: (P ++ post) := by
    rw [dropWhile_all_append _ _ hL]
    simp [List.dropWhile_cons, at_sign_not_local]
  have htake : ((c :: L) ++ ('@' :: (P ++ post))).takeWhile isLocalChar = c :: L := by
    rw [takeWhile_all_append _ _ hL]
    simp [List.takeWhile_cons, at_sign_not_local]
  have htakeP : (P ++ post).takeWhile isWordChar = P := by
    rw [takeWhile_all_append _ _ hPw]
    rcases post with _ | ⟨d, post'⟩
    · simp
    · have hd : isWordChar d = false := hpost d (by simp)
      simp [List.takeWhile_cons, hd]
  have hdropP : (P ++ post).dropWhile isWordChar = post := by
    rw [dropWhile_all_append _ _ hPw]
    rcases post with _ | ⟨d, post'⟩
    · simp
    · have hd : isWordChar d = false := hpost d (by simp)
      simp [List.dropWhile_cons, hd]
  rw [upiTry_of_drop_at hdrop, htake, htakeP, hdropP, if_pos ⟨hm, hP⟩]

/-- Behind a barrier character (not of the local class, not `@`), an attempt
either fails or its leftover still starts before the barrier. -/
theorem upiTry_barrier {m : Nat} {b : Char} (hbl : isLocalChar b = false) (hba : b ≠ '@')
    (u R : List Char) :
    upiTry m (u ++ b :: R) = none ∨
      ∃ mt u2, upiTry m (u ++ b :: R) = some (mt, u2 ++ b :: R) ∧ u2.length < u.length := by
  have hbw : isWordChar b = false := not_word_of_not_local hbl
  have hdrop : (u ++ b :: R).dropWhile isLocalChar = u.dropWhile isLocalChar ++ b :: R :=
    dropWhile_append_barrier hbl u R
  rcases hD : u.dropWhile isLocalChar with _ | ⟨a, D⟩
  · left
    rw [hD] at hdrop
    exact upiTry_of_drop_ne (by simpa using hdrop) hba
  · by_cases ha : a = '@'
    · subst ha
      rw [hD] at hdrop
      have hdrop2 : (u ++ b :: R).dropWhile isLocalChar = '@' :: (D ++ b :: R) := by
        simpa using hdrop
      have hPeq : (D ++ b :: R).takeWhile isWordChar = D.takeWhile isWordChar :=
        takeWhile_append_barrier hbw D R
      have hDeq : (D ++ b :: R).dropWhile isWordChar = D.dropWhile isWordChar ++ b :: R :=
        dropWhile_append_barrier hbw D R
      have hlen : D.length < u.length := by
        have h1 := (List.dropWhile_sublist (l := u) isLocalChar).length_le
        rw [hD] at h1
        simp at h1
        omega
      rw [upiTry_of_drop_at hdrop2, hPeq, hDeq]
      split
      · right
        refine ⟨(u ++ b :: R).takeWhile isLocalChar ++ '@' :: D.takeWhile isWordChar,
          D.dropWhile isWordChar, rfl, ?_⟩
        have h2 := (List.dropWhile_sublist (l := D) isWordChar).length_le
        omega
      · left; rfl
    · left
      rw [hD] at hdrop
      exact upiTry_of_drop_ne (by simpa using hdrop) ha

end Honeypot

namespace Honeypot

theorem upiScanGo_nil (m : Nat) (pw : Bool) : upiScanGo m pw [] = [] := by
  rw [upiScanGo]

theorem upiScanGo_cons_false {m : Nat} {pw : Bool} {c : Char} {cs : List Char}
    (hb : (if isWordChar c then !pw else isLocalChar c && pw) = false) :
    upiScanGo m pw (c :: cs) = upiScanGo m (isWordChar c) cs := by
  rw [upiScanGo]
  rw [hb]
  simp

theorem upiScanGo_cons_some {m : Nat} {pw : Bool} {c : Char} {cs mt rest : List Char}
    (hb : (if isWordChar c then !pw else isLocalChar c && pw) = true)
    (ht : upiTry m (c :: cs) = some (mt, rest)) :
    upiScanGo m pw (c :: cs) = mt :: upiScanGo m true rest := by
  rw [upiScanGo]
  rw [hb]
  simp only [if_true]
  split <;> simp_all

theorem upiScanGo_cons_none {m : Nat} {pw : Bool} {c : Char} {cs : List Char}
    (ht : upiTry m (c :: cs) = none) :
    upiScanGo m pw (c :: cs) = upiScanGo m (isWordChar c) cs := by
  rw [upiScanGo]
  rcases hb : (if isWordChar c then !pw else isLocalChar c && pw)
  · simp
  · simp only [if_true]
    split <;> simp_all

/-- Scanning through a stretch that ends just before a barrier character (not
of the local class, not `@`): the scan of the whole text is the scan of what
follows the barrier, preceded by whatever matches the stretch produced. -/
theorem upiScanGo_barrier (m : Nat) {b : Char} (hbl : isLocalChar b = false) (hba : b ≠ '@') :
    ∀ (n : Nat) (u : List Char), u.length ≤ n → ∀ (pw : Bool) (R : List Char),
      ∃ out, upiScanGo m pw (u ++ b :: R) = out ++ upiScanGo m false R := by
  have hbw : isWordChar b = false := not_word_of_not_local hbl
  intro n
  induction n with
  | zero =>
      intro u hu pw R
      have hu0 : u = [] := by
        cases u
        · rfl
        · simp at hu
      subst hu0
      refine ⟨[], ?_⟩
      simp only [List.nil_append]
      have hb2 : (if isWordChar b then !pw else isLocalChar b && pw) = false := by
        rw [hbw, hbl]
        simp
      rw [upiScanGo_cons_false hb2, hbw]
  | succ n ih =>
      intro u hu pw R
      match u with
      | [] =>
          refine ⟨[], ?_⟩
          simp only [List.nil_append]
          have hb2 : (if isWordChar b then !pw else isLocalChar b && pw) = false := by
            rw [hbw, hbl]
            simp
          rw [upiScanGo_cons_false hb2, hbw]
      | c :: u' =>
          have hassoc : (c :: u') ++ b :: R = c :: (u' ++ b :: R) := rfl
          rcases upiTry_barrier (m := m) hbl hba (c :: u') R with hnone | ⟨mt, u2, hsome, hlen⟩
          · have hstep : upiScanGo m pw ((c :: u') ++ b :: R)
                = upiScanGo m (isWordChar c) (u' ++ b :: R) := by
              rw [hassoc]
              exact upiScanGo_cons_none (by rw [← hassoc]; exact hnone)
            rcases ih u' (by simpa using hu) (isWordChar c) R with
              ⟨out, hout⟩
            exact ⟨out, by rw [hstep, hout]⟩
          · rcases hb : (if isWordChar c then !pw else isLocalChar c && pw)
            · have hstep : upiScanGo m pw ((c :: u') ++ b :: R)
                  = upiScanGo m (isWordChar c) (u' ++ b :: R) := by
                rw [hassoc]
                exact upiScanGo_cons_false hb
              rcases ih u' (by simpa using hu) (isWordChar c) R with
                ⟨out, hout⟩
              exact ⟨out, by rw [hstep, hout]⟩
            · have hstep : upiScanGo m pw ((c :: u') ++ b :: R)
                  = mt :: upiScanGo m true (u2 ++ b :: R) := by
                rw [hassoc]
                exact upiScanGo_cons_some hb (by rw [← hassoc]; exact hsome)
              have hu2 : u2.length ≤ n := by
                have : (c :: u').length ≤ n + 1 := hu
                simp at this
                omega
              rcases ih u2 hu2 true R with ⟨out, hout⟩
              exact ⟨mt :: out, by rw [hstep, hout]; rfl⟩

/-- At the start of a well-delimited handle the scan emits exactly the
handle and continues after it. -/
theorem upiScanGo_start {m : Nat} {c : Char} {L P post : List Char}
    (hc : isWordChar c = true)
    (hL : ∀ x ∈ c :: L, isLocalChar x = true)
    (hm : m ≤ (c :: L).length) (hP : P ≠ []) (hPw : ∀ x ∈ P, isWordChar x = true)
    (hpost : ∀ d ∈ post.head?, isWordChar d = false) :
    upiScanGo m false ((c :: L) ++ ('@' :: (P ++ post)))
      = ((c :: L) ++ '@' :: P) :: upiScanGo m true post := by
  have hb : (if isWordChar c then !false else isLocalChar c && false) = true := by
    rw [hc]
    rfl
  have htry := upiTry_start (m := m) hL hm hP hPw hpost
  have hassoc : (c :: L) ++ ('@' :: (P ++ post)) = c :: (L ++ ('@' :: (P ++ post))) := rfl
  rw [hassoc] at htry ⊢
  exact upiScanGo_cons_some hb htry

end Honeypot

namespace Honeypot

/-- With enough fuel the fueled scanner agrees with the well-founded one. -/
theorem upiScanGoF_eq_upiScanGo (m : Nat) :
    ∀ (fuel : Nat) (pw : Bool) (l : List Char), l.length ≤ fuel →
      upiScanGoF m fuel pw l = upiScanGo m pw l := by
  intro fuel
  induction fuel with
  | zero =>
      intro pw l hl
      have hl0 : l = [] := by
        cases l
        · rfl
        · simp at hl
      subst hl0
      rw [upiScanGo_nil]
      rfl
  | succ fuel ih =>
      intro pw l hl
      match l with
      | [] =>
          rw [upiScanGo_nil]
          rfl
      | c :: cs =>
          have hcs : cs.length ≤ fuel := by
            simp at hl
            omega
          rw [upiScanGoF]
          rcases hb : (if isWordChar c then !pw else isLocalChar c && pw)
          · rw [upiScanGo_cons_false hb]
            simp only [hb, Bool.false_eq_true, if_false]
            exact ih (isWordChar c) cs hcs
          · simp only [hb, if_true]
            rcases ht : upiTry m (c :: cs) with _ | ⟨mt, rest⟩
            · rw [upiScanGo_cons_none ht]
              show upiScanGoF m fuel (isWordChar c) cs = _
              exact ih (isWordChar c) cs hcs
            · have hrest : rest.length ≤ fuel := by
                have hlt := upiTry_rest_lt ht
                simp at hlt
                omega
              rw [upiScanGo_cons_some hb ht]
              show mt :: upiScanGoF m fuel true rest = _
              rw [ih true rest hrest]

/-- The completeness half of the amended C6: a well-delimited valid handle in
the text is returned, lower-cased, by `UnifiedIntelligenceExtractor`. -/
theorem upi_values_complete {c : Char} {L P : List Char} (pre post : List Char)
    (hc : isWordChar c = true)
    (hL : ∀ x ∈ c :: L, isLocalChar x = true)
    (hP : P ≠ []) (hPw : ∀ x ∈ P, isWordChar x = true)
    (hpre : ∀ bc ∈ pre.getLast?, isLocalChar bc = false ∧ bc ≠ '@')
    (hpost : ∀ d ∈ post.head?, isWordChar d = false) :
    (lowerStr ((c :: L) ++ '@' :: P)).asString
      ∈ OpenRouterIntegration.upi_id_values ((pre ++ ((c :: L) ++ '@' :: P) ++ post).asString) := by
  have hmem : ((c :: L) ++ '@' :: P) ∈
      upiScanGo 1 false (pre ++ ((c :: L) ++ '@' :: P) ++ post) := by
    have hnorm : pre ++ ((c :: L) ++ '@' :: P) ++ post
        = pre ++ ((c :: L) ++ ('@' :: (P ++ post))) := by
      simp [List.append_assoc]
    rw [hnorm]
    rcases List.eq_nil_or_concat pre with hpre0 | ⟨pre0, b, hpre0⟩
    · subst hpre0
      simp only [List.nil_append]
      rw [upiScanGo_start hc hL (by simp) hP hPw hpost]
      simp
    · subst hpre0
      rcases hpre b (by simp) with ⟨hbl, hba⟩
      rw [List.concat_eq_append]
      have hsplit : (pre0 ++ [b]) ++ ((c :: L) ++ ('@' :: (P ++ post)))
          = pre0 ++ b :: ((c :: L) ++ ('@' :: (P ++ post))) := by
        simp
      rw [hsplit]
      rcases upiScanGo_barrier 1 hbl hba pre0.length pre0 le_rfl false
          ((c :: L) ++ ('@' :: (P ++ post))) with ⟨out, hout⟩
      rw [hout, upiScanGo_start hc hL (by simp) hP hPw hpost]
      simp
  unfold OpenRouterIntegration.upi_id_values
  rw [mem_dedupKeepFirst]
  have htext : ((pre ++ ((c :: L) ++ '@' :: P) ++ post).asString).data
      = pre ++ ((c :: L) ++ '@' :: P) ++ post := rfl
  rw [upiScan, htext, upiScanGoF_eq_upiScanGo 1 _ _ _ le_rfl]
  exact List.mem_map_of_mem _ hmem

end Honeypot

/-! ## Session-level lemmas (`guvi_hackathon_api.py`) -/

namespace GuviHackathonApi

theorem mergeList_nil (cur : List String) : mergeList cur [] = cur := rfl

theorem mergeList_cons (cur : List String) (a : String) (l : List String) :
    mergeList cur (a :: l)
      = mergeList (if a ≠ "" && !cur.contains a then cur ++ [a] else cur) l := rfl

/-- The merge step's Boolean guard, read propositionally. -/
theorem mergeStep_eq (acc : List String) (item : String) :
    (if item ≠ "" && !acc.contains item then acc ++ [item] else acc)
      = if item ≠ "" ∧ item ∉ acc then acc ++ [item] else acc := by
  by_cases h1 : item = "" <;> by_cases h2 : item ∈ acc <;> simp [h1, h2]

theorem mem_mergeList {v : String} :
    ∀ (new cur : List String), v ∈ mergeList cur new ↔ v ∈ cur ∨ (v ∈ new ∧ v ≠ "") := by
  intro new
  induction new with
  | nil => intro cur; simp [mergeList]
  | cons a l ih =>
      intro cur
      rw [mergeList_cons, mergeStep_eq, ih]
      split_ifs with hc
      · obtain ⟨ha, hac⟩ := hc
        simp only [List.mem_append, List.mem_cons, List.not_mem_nil, or_false]
        constructor
        · rintro ((h | h) | ⟨h, hne⟩)
          · exact Or.inl h
          · exact Or.inr ⟨Or.inl h, h ▸ ha⟩
          · exact Or.inr ⟨Or.inr h, hne⟩
        · rintro (h | ⟨h | h, hne⟩)
          · exact Or.inl (Or.inl h)
          · exact Or.inl (Or.inr h)
          · exact Or.inr ⟨h, hne⟩
      · simp only [List.mem_cons]
        constructor
        · rintro (h | ⟨h, hne⟩)
          · exact Or.inl h
          · exact Or.inr ⟨Or.inr h, hne⟩
        · rintro (h | ⟨h | h, hne⟩)
          · exact Or.inl h
          · by_cases hae : a = ""
            · exact absurd (h.trans hae) hne
            · have hac : a ∈ cur := by
                by_contra hnac
                exact hc ⟨hae, hnac⟩
              exact Or.inl (h ▸ hac)
          · exact Or.inr ⟨h, hne⟩

theorem nodup_mergeList :
    ∀ (new cur : List String), cur.Nodup → (mergeList cur new).Nodup := by
  intro new
  induction new with
  | nil => intro cur h; simpa [mergeList] using h
  | cons a l ih =>
      intro cur h
      rw [mergeList_cons, mergeStep_eq]
      refine ih _ ?_
      split_ifs with hc
      · simp [List.nodup_append, h, hc.2]
      · exact h

/-! Projection facts of `handle_message`, all definitional in the source
(the `simp only` merely unfolds the definition and reduces projections). -/

theorem hm_turn_count (s : Session) (inp : TurnInput) :
    (handle_message s inp).1.turn_count = s.turn_count + 1 := rfl

theorem hm_threat (s : Session) (inp : TurnInput) :
    (handle_message s inp).1.threat_level
      = max s.threat_level (detect_scam_type inp.text).2 := rfl

theorem hm_upiIds (s : Session) (inp : TurnInput) :
    (handle_message s inp).1.intelligence.upiIds
      = mergeList s.intelligence.upiIds (extract inp.text).upiIds := rfl

theorem hm_should_callback (s : Session) (inp : TurnInput) :
    (handle_message s inp).2.should_callback
      = (decide (5 ≤ (detect_scam_type inp.text).2) && decide (3 ≤ s.turn_count + 1) &&
          (merge_intelligence s.intelligence (extract inp.text)).anyNonempty) := by
  simp only [handle_message]

theorem hm_sent_report (s : Session) (inp : TurnInput) :
    (handle_message s inp).2.sent_report
      = ((handle_message s inp).2.should_callback && !s.callback_sent && inp.deliveryOk) := by
  simp only [handle_message]

theorem hm_callback_sent (s : Session) (inp : TurnInput) :
    (handle_message s inp).1.callback_sent
      = (s.callback_sent || (handle_message s inp).2.sent_report) := by
  simp only [handle_message]

theorem runSession_nil (s : Session) : runSession s [] = s := rfl

theorem runSession_cons (s : Session) (inp : TurnInput) (rest : List TurnInput) :
    runSession s (inp :: rest) = runSession (handle_message s inp).1 rest := rfl

theorem runOutputs_nil (s : Session) : runOutputs s [] = [] := rfl

theorem runOutputs_cons (s : Session) (inp : TurnInput) (rest : List TurnInput) :
    runOutputs s (inp :: rest)
      = (handle_message s inp).2 :: runOutputs (handle_message s inp).1 rest := rfl

theorem runSession_threat_mono :
    ∀ (inps : List TurnInput) (s : Session),
      s.threat_level ≤ (runSession s inps).threat_level := by
  intro inps
  induction inps with
  | nil => intro s; exact le_refl _
  | cons inp rest ih =>
      intro s
      rw [runSession_cons]
      refine le_trans ?_ (ih (handle_message s inp).1)
      rw [hm_threat]
      exact le_max_left _ _

theorem runSession_upiIds_nodup :
    ∀ (inps : List TurnInput) (s : Session),
      s.intelligence.upiIds.Nodup → ((runSession s inps).intelligence.upiIds).Nodup := by
  intro inps
  induction inps with
  | nil => intro s h; exact h
  | cons inp rest ih =>
      intro s h
      rw [runSession_cons]
      refine ih _ ?_
      rw [hm_upiIds]
      exact nodup_mergeList _ _ h

theorem runSession_upiIds_mem :
    ∀ (inps : List TurnInput) (s : Session) (v : String),
      v ∈ (runSession s inps).intelligence.upiIds ↔
        v ∈ s.intelligence.upiIds ∨ ∃ inp ∈ inps, v ∈ (extract inp.text).upiIds ∧ v ≠ "" := by
  intro inps
  induction inps with
  | nil =>
      intro s v
      rw [runSession_nil]
      simp
  | cons inp rest ih =>
      intro s v
      rw [runSession_cons, ih, hm_upiIds, mem_mergeList]
      simp only [List.mem_cons]
      constructor
      · rintro ((h | ⟨h, hne⟩) | ⟨i, hi, h, hne⟩)
        · exact Or.inl h
        · exact Or.inr ⟨inp, Or.inl rfl, h, hne⟩
        · exact Or.inr ⟨i, Or.inr hi, h, hne⟩
      · rintro (h | ⟨i, hi | hi, h, hne⟩)
        · exact Or.inl (Or.inl h)
        · exact Or.inl (Or.inr ⟨hi ▸ h, hne⟩)
        · exact Or.inr ⟨i, hi, h, hne⟩

theorem sentReportCount_nil (s : Session) : sentReportCount s [] = 0 := rfl

theorem sentReportCount_cons (s : Session) (inp : TurnInput) (rest : List TurnInput) :
    sentReportCount s (inp :: rest)
      = (if (handle_message s inp).2.sent_report then 1 else 0)
        + sentReportCount (handle_message s inp).1 rest := by
  unfold sentReportCount
  rw [runOutputs_cons, List.filter_cons]
  rcases h : (handle_message s inp).2.sent_report
  · simp [h]
  · simp [h, Nat.add_comm]

theorem sentReportCount_bound :
    ∀ (inps : List TurnInput) (s : Session),
      sentReportCount s inps ≤ if s.callback_sent then 0 else 1 := by
  intro inps
  induction inps with
  | nil =>
      intro s
      rw [sentReportCount_nil]
      split <;> simp
  | cons inp rest ih =>
      intro s
      rw [sentReportCount_cons]
      have h2 := ih (handle_message s inp).1
      rw [hm_callback_sent] at h2
      rcases hcb : s.callback_sent
      · rcases hsr : (handle_message s inp).2.sent_report
        · rw [hcb, hsr] at h2
          simp only [Bool.false_or] at h2
          simp [hsr, hcb]
          simpa using h2
        · rw [hcb, hsr] at h2
          simp only [Bool.false_or] at h2
          simp at h2
          simp [hsr, hcb]
          omega
      · have hsr : (handle_message s inp).2.sent_report = false := by
          rw [hm_sent_report, hcb]
          simp
        rw [hcb, hsr] at h2
        simp only [Bool.or_false] at h2
        simp at h2
        simp [hsr, hcb]
        omega

theorem sentReportCount_zero_of_sent :
    ∀ (inps : List TurnInput) (s : Session),
      s.callback_sent = true → sentReportCount s inps = 0 := by
  intro inps s h
  have h2 := sentReportCount_bound inps s
  rw [h] at h2
  simpa using h2

end GuviHackathonApi

/-! ## Claims C3, C4, C6, C7, C9 -/

/-- C3 (counterexample): a fresh session whose first turn is engage-worthy
and yields intelligence, followed by two harmless turns ("ok").  The claim's
decision (ever engage-worthy, three turns, non-empty intelligence) is true at
turn 3, but the code's decision is false on all three turns, because the code
uses only the current turn's classification (`scam_detected` is overwritten
every turn). -/
theorem c3_counterexample :
    ((GuviHackathonApi.runOutputs GuviHackathonApi.Session.fresh
        [GuviHackathonApi.plainTurn "use abc@paytm", GuviHackathonApi.plainTurn "ok",
         GuviHackathonApi.plainTurn "ok"]).map (fun o => o.engaged) = [true, false, false]) ∧
    ((GuviHackathonApi.runOutputs GuviHackathonApi.Session.fresh
        [GuviHackathonApi.plainTurn "use abc@paytm", GuviHackathonApi.plainTurn "ok",
         GuviHackathonApi.plainTurn "ok"]).map (fun o => o.should_callback)
      = [false, false, false]) ∧
    Spec.c3_claimDecision true
        (GuviHackathonApi.runSession GuviHackathonApi.Session.fresh
          [GuviHackathonApi.plainTurn "use abc@paytm", GuviHackathonApi.plainTurn "ok",
           GuviHackathonApi.plainTurn "ok"]).turn_count
        (GuviHackathonApi.runSession GuviHackathonApi.Session.fresh
          [GuviHackathonApi.plainTurn "use abc@paytm", GuviHackathonApi.plainTurn "ok",
           GuviHackathonApi.plainTurn "ok"]).intelligence
        (GuviHackathonApi.runSession GuviHackathonApi.Session.fresh
          [GuviHackathonApi.plainTurn "use abc@paytm", GuviHackathonApi.plainTurn "ok",
           GuviHackathonApi.plainTurn "ok"]).threat_level = true := by
  decide

/-- C3 (amended): the callback decision is true exactly when the CURRENT
turn's message is classified engage-worthy (its detected threat is at least
5), the turn count is at least 3, and at least one intelligence category of
the session is non-empty — there is no threat-level-7 alternative; and on a
fresh session given three consecutive engage-worthy turns each carrying a
payment handle, the decision is false on turns 1 and 2 and true on turn 3. -/
theorem c3_callback_decision_amended :
    (∀ (s : GuviHackathonApi.Session) (inp : GuviHackathonApi.TurnInput),
        (GuviHackathonApi.handle_message s inp).2.should_callback
          = (decide (5 ≤ (GuviHackathonApi.detect_scam_type inp.text).2) &&
             decide (3 ≤ s.turn_count + 1) &&
             (GuviHackathonApi.merge_intelligence s.intelligence
                (GuviHackathonApi.extract inp.text)).anyNonempty)) ∧
    ((GuviHackathonApi.runOutputs GuviHackathonApi.Session.fresh
        [GuviHackathonApi.plainTurn "pay abc@paytm",
         GuviHackathonApi.plainTurn "send def@phonepe",
         GuviHackathonApi.plainTurn "upi ghi@oksbi"]).map (fun o => o.should_callback)
      = [false, false, true]) := by
  constructor
  · exact GuviHackathonApi.hm_should_callback
  · decide

/-- C4: the report callback fires at most once per session: once a turn has
posted the report (setting `callback_sent`), no later turn posts it again,
and a fresh session posts at most one report over any sequence of turns. -/
theorem c4_report_at_most_once :
    (∀ (s : GuviHackathonApi.Session) (inps : List GuviHackathonApi.TurnInput),
        s.callback_sent = true → GuviHackathonApi.sentReportCount s inps = 0) ∧
    (∀ (inps : List GuviHackathonApi.TurnInput),
        GuviHackathonApi.sentReportCount GuviHackathonApi.Session.fresh inps ≤ 1) := by
  constructor
  · intro s inps h
    exact GuviHackathonApi.sentReportCount_zero_of_sent inps s h
  · intro inps
    have h := GuviHackathonApi.sentReportCount_bound inps GuviHackathonApi.Session.fresh
    simpa using h

/-- C4 witness: the first conjunct applied to a concrete session with
`callback_sent` set and one further turn. -/
theorem c4_report_at_most_once_witness :
    GuviHackathonApi.sentReportCount
        ⟨[], GuviHackathonApi.Intelligence.empty, false, "unknown", 0, 3, true⟩
        [GuviHackathonApi.plainTurn "pay abc@paytm"] = 0 :=
  c4_report_at_most_once.1 _ _ rfl

/-- C6 (counterexample): the text "x@y@paytm" contains the word-bounded,
syntactically valid handle "y@paytm", but the `UnifiedIntelligenceExtractor`
returns only ["x@y"] for it — the greedy leftmost match consumes the `x@y`
prefix. -/
theorem c6_counterexample :
    Spec.validHandle "y@paytm".data = true ∧
    Spec.occursBounded "y@paytm".data "x@y@paytm".data = true ∧
    OpenRouterIntegration.upi_id_values "x@y@paytm" = ["x@y"] ∧
    "y@paytm" ∉ OpenRouterIntegration.upi_id_values "x@y@paytm" := by
  decide

/-- C6 (amended): a syntactically valid handle whose local part starts with a
word character, delimited on the left by the start of text or a character
outside the local class that is not `@`, and on the right by the end of text
or a non-word character, is returned lower-cased by the
`UnifiedIntelligenceExtractor`; and across any sequence of turns the
session's `upiIds` intelligence has no duplicates — it contains exactly the
nonempty handle values extracted on some turn, each exactly once, however
often a text repeats. -/
theorem c6_handles_lowercased_and_deduped :
    (∀ (c : Char) (L P pre post : List Char),
        Honeypot.isWordChar c = true →
        (∀ x ∈ c :: L, Honeypot.isLocalChar x = true) →
        P ≠ [] →
        (∀ x ∈ P, Honeypot.isWordChar x = true) →
        (∀ bc ∈ pre.getLast?, Honeypot.isLocalChar bc = false ∧ bc ≠ '@') →
        (∀ d ∈ post.head?, Honeypot.isWordChar d = false) →
        (Honeypot.lowerStr ((c :: L) ++ '@' :: P)).asString
          ∈ OpenRouterIntegration.upi_id_values
              ((pre ++ ((c :: L) ++ '@' :: P) ++ post).asString)) ∧
    (∀ (inps : List GuviHackathonApi.TurnInput),
        ((GuviHackathonApi.runSession GuviHackathonApi.Session.fresh
            inps).intelligence.upiIds).Nodup ∧
        (∀ v : String,
            v ∈ (GuviHackathonApi.runSession GuviHackathonApi.Session.fresh
                inps).intelligence.upiIds ↔
              (v ≠ "" ∧ ∃ inp ∈ inps, v ∈ (GuviHackathonApi.extract inp.text).upiIds)) ∧
        (∀ v : String,
            v ∈ (GuviHackathonApi.runSession GuviHackathonApi.Session.fresh
                inps).intelligence.upiIds →
              ((GuviHackathonApi.runSession GuviHackathonApi.Session.fresh
                  inps).intelligence.upiIds).count v = 1)) := by
  constructor
  · intro c L P pre post hc hL hP hPw hpre hpost
    exact Honeypot.upi_values_complete pre post hc hL hP hPw hpre hpost
  · intro inps
    have hnil : GuviHackathonApi.Session.fresh.intelligence.upiIds = [] := rfl
    have hnodup := GuviHackathonApi.runSession_upiIds_nodup inps GuviHackathonApi.Session.fresh
      (by rw [hnil]; exact List.nodup_nil)
    refine ⟨hnodup, ?_, ?_⟩
    · intro v
      rw [GuviHackathonApi.runSession_upiIds_mem, hnil]
      simp only [List.not_mem_nil, false_or]
      constructor
      · rintro ⟨i, hi, hm, hne⟩
        exact ⟨hne, i, hi, hm⟩
      · rintro ⟨hne, i, hi, hm⟩
        exact ⟨i, hi, hm, hne⟩
    · intro v hv
      exact List.count_eq_one_of_mem hnodup hv

/-- C6 witness: the first conjunct of the amended theorem at the concrete
text " ab@paytm x" (handle "ab@paytm" preceded by a space and followed by a
space), and the second at a one-turn session. -/
theorem c6_handles_witness :
    ("ab@paytm" : String)
        ∈ OpenRouterIntegration.upi_id_values " ab@paytm x" ∧
    ((GuviHackathonApi.runSession GuviHackathonApi.Session.fresh
        [GuviHackathonApi.plainTurn "use abc@paytm"]).intelligence.upiIds).Nodup := by
  constructor
  · have h := c6_handles_lowercased_and_deduped.1 'a' ['b'] "paytm".data [' '] (' ' :: ['x'])
      (by decide) (by decide) (by decide) (by decide) (by decide) (by decide)
    simpa using h
  · exact (c6_handles_lowercased_and_deduped.2
      [GuviHackathonApi.plainTurn "use abc@paytm"]).1

/-- C7: within a session the threat level never decreases across processed
turns, and the fatigue score never decreases as events are recorded and stays
within [0, 100] (scores are naturals, so the lower bound is implicit). -/
theorem c7_monotonicity :
    (∀ (s : GuviHackathonApi.Session) (inps : List GuviHackathonApi.TurnInput),
        s.threat_level ≤ (GuviHackathonApi.runSession s inps).threat_level) ∧
    (∀ (events : List FullHoneypotSystem.FatigueEvent) (event_type : String),
        FullHoneypotSystem.calculate_score events
          ≤ FullHoneypotSystem.calculate_score
              (FullHoneypotSystem.add_event events event_type)) ∧
    (∀ events : List FullHoneypotSystem.FatigueEvent,
        FullHoneypotSystem.calculate_score events ≤ 100) := by
  refine ⟨?_, ?_, ?_⟩
  · intro s inps
    exact GuviHackathonApi.runSession_threat_mono inps s
  · intro events event_type
    unfold FullHoneypotSystem.calculate_score FullHoneypotSystem.add_event
    simp only [List.map_append, List.sum_append, List.map_cons, List.map_nil,
      List.sum_cons, List.sum_nil]
    omega
  · intro events
    exact Nat.min_le_left _ _

/-- C9: the generative path of `OpenRouterPersonaAgent.generate_response`,
as invoked by `AIEnhancedOrchestrator` in this repository (standalone mode
passes `full_honeypot_system.PERSONA_CONFIG`, which has no "gender" key),
raises `KeyError('gender')` while building the prompt — before any retry or
template fallback can run — for every message, turn and network behaviour. -/
theorem c9_generate_response_raises (outcomes : Nat → OpenRouterIntegration.ApiOutcome)
    (current_message : String) (turn_count : Nat) (coin : Bool) (pick : Nat) :
    OpenRouterIntegration.generate_response OpenRouterIntegration.standalone_persona
        outcomes current_message turn_count coin pick = Except.error "gender" := rfl
